import Mathlib

/-!
Verification development for the deepclaw voice-agent server
(`src/deepclaw/voice_agent_server.py`).

The Python source is shallowly embedded: pure helpers become Lean
functions on `String` / `List Char`; the process-wide session registry
becomes an association list with Python-dict semantics; JSON values get
an explicit inductive type with a fuel-based parser and a serializer
mirroring `json.loads` / `json.dumps` (default separators, ASCII
escaping); the per-call media-bridge loops become functions from the
list of received messages to the list of messages they emit.  Python
truthiness, substring membership (`in`), and the uncaught-exception
paths of the streaming rewriter are modelled explicitly.
-/

/-! ## Python-style character and string helpers -/

/-- ASCII whitespace as recognised by Python's `str.strip` and the `\s`
regex class (the unicode extras are not exercised by this code base). -/
def isPySpace (c : Char) : Bool :=
  c = ' ' || c = '\t' || c = '\n' || c = '\r' || c = '\x0b' || c = '\x0c'

/-- ASCII decimal digit (`\d`, `str.isdigit` on the data seen here). -/
def isPyDigit (c : Char) : Bool :=
  '0' ≤ c && c ≤ '9'

/-- ASCII lower-casing, modelling `str.lower` on the ASCII data used here. -/
def pyLowerChar (c : Char) : Char :=
  if 'A' ≤ c && c ≤ 'Z' then Char.ofNat (c.toNat + 32) else c

def pyLower (s : String) : String :=
  String.mk (s.toList.map pyLowerChar)

/-- Drop leading whitespace (`str.lstrip`). -/
def lstripL (l : List Char) : List Char :=
  l.dropWhile isPySpace

/-- Drop trailing whitespace (`str.rstrip`). -/
def rstripL (l : List Char) : List Char :=
  (l.reverse.dropWhile isPySpace).reverse

/-- `str.strip`: drop whitespace at both ends. -/
def pyStripL (l : List Char) : List Char :=
  lstripL (rstripL l)

def pyStrip (s : String) : String :=
  String.mk (pyStripL s.toList)

/-- Python's substring membership `needle in hay` on lists of characters
(the empty needle is a member of everything). -/
def listIn (needle : List Char) : List Char → Bool
  | [] => needle.isEmpty
  | c :: rest => needle.isPrefixOf (c :: rest) || listIn needle rest

/-- Python's `needle in hay` for strings. -/
def strIn (needle hay : String) : Bool :=
  listIn needle.toList hay.toList

/-- Python `int(...)` on an already-stripped string: optional sign then
decimal digits (digit-group underscores are not modelled). -/
def pyParseInt (s : String) : Option Int :=
  let l := pyStripL s.toList
  let core : List Char → Option Nat := fun ds =>
    if ds.isEmpty || ds.any (fun c => !(isPyDigit c)) then none
    else some (ds.foldl (fun acc c => acc * 10 + (c.toNat - 48)) 0)
  match l with
  | '-' :: ds => (core ds).map (fun n => -(n : Int))
  | '+' :: ds => (core ds).map (fun n => (n : Int))
  | ds => (core ds).map (fun n => (n : Int))

/-! ## Environment parsing helpers (`as_bool_env`, `as_int_env`) -/

/-- `as_bool_env` from the source: a set of recognised literals after
lower-casing and stripping, anything else falls back to the default.
The `value is None` branch is modelled by an `Option` argument. -/
def asBoolEnv (value : Option String) (dflt : Bool) : Bool :=
  match value with
  | none => dflt
  | some v =>
    let normalized := pyStrip (pyLower v)
    if normalized = "1" || normalized = "true" || normalized = "yes" || normalized = "on" then
      true
    else if normalized = "0" || normalized = "false" || normalized = "no" || normalized = "off" then
      false
    else dflt

/-- `as_int_env` from the source: parse the stripped value as an int,
fall back to the default on parse failure or a non-positive result. -/
def asIntEnv (value : Option String) (dflt : Nat) : Nat :=
  match value with
  | none => dflt
  | some v =>
    match pyParseInt (pyStrip v) with
    | none => dflt
    | some parsed => if parsed > 0 then parsed.toNat else dflt

/-! ## Session registry (`_active_sessions` and its uses)

The registry is the process-wide dict `_active_sessions`; we model it as
an association list with Python-dict semantics: updating an existing key
keeps its position, a new key is appended, lookup finds the unique
binding. -/

abbrev Registry := List (String × String)

/-- `d[k] = v` on a Python dict: replace in place if present, else append. -/
def registrySet : Registry → String → String → Registry
  | [], k, v => [(k, v)]
  | (k2, v2) :: rest, k, v =>
    if k2 = k then (k, v) :: rest else (k2, v2) :: registrySet rest k v

/-- `d.get(k)`: the value bound to `k`, if any. -/
def registryLookup (reg : Registry) (k : String) : Option String :=
  (reg.find? (fun kv => kv.1 = k)).map (fun kv => kv.2)

/-- `d.pop(k, None)`: remove the binding for `k` if present. -/
def registryPop (reg : Registry) (k : String) : Registry :=
  reg.filter (fun kv => kv.1 ≠ k)

/-- `for k, v in list(d.items()): if v == sessionKey: del d[k]`. -/
def registryEraseValue (reg : Registry) (v : String) : Registry :=
  reg.filter (fun kv => kv.2 ≠ v)

/-- The per-call session key computed in `twilio_media_websocket`:
`f"agent:voice:owner:{OWNER_PHONE}"`. -/
def sessionKeyFor (ownerPhone : String) : String :=
  "agent:voice:owner:" ++ ownerPhone

/-- Registry effect of processing a `start` event (lines 929-934):
register the session key under the public URL and under the `"_current"`
catch-all sentinel. -/
def bridgeStartRegister (reg : Registry) (publicUrl ownerPhone : String) : Registry :=
  let key := sessionKeyFor ownerPhone
  registrySet (registrySet reg publicUrl key) "_current" key

/-- Registry effect of the bridge's `finally` teardown (lines 987-991):
pop `"_current"`, then delete every entry whose value equals this call's
session key. -/
def bridgeTeardownRegistry (reg : Registry) (sessionKey : String) : Registry :=
  registryEraseValue (registryPop reg "_current") sessionKey

/-- The proxy's correlation lookup (line 620):
`session_key = _active_sessions.get("_current")`. -/
def proxyCurrentSessionKey (reg : Registry) : Option String :=
  registryLookup reg "_current"

/-- The headers the proxy forwards (lines 622-627); the session header is
attached only when the looked-up key is truthy (a non-empty string). -/
def proxyForwardHeaders (reg : Registry) (gatewayToken : String) : List (String × String) :=
  let base := [("Content-Type", "application/json"),
               ("Authorization", "Bearer " ++ gatewayToken)]
  match proxyCurrentSessionKey reg with
  | some k => if k ≠ "" then base ++ [("X-OpenClaw-Session-Key", k)] else base
  | none => base

/-! ## Full bridge teardown state (claim C5)

`twilio_media_websocket` keeps the two forwarding tasks, the warm-up
task and the outbound connection in local variables; the `finally` block
cancels/closes whichever exist and scrubs the registry.  A task is
`none` when never created, `some b` when created with `b` recording
whether it has been cancelled; the Deepgram socket likewise records
whether it has been closed. -/

structure BridgeState where
  senderTask : Option Bool
  receiverTask : Option Bool
  prewarmTask : Option Bool
  deepgramWs : Option Bool
  sessionKey : Option String
  registry : Registry
  activeCallContext : String
deriving Repr, DecidableEq

/-- The `finally` block of `twilio_media_websocket` (lines 976-993). -/
def bridgeTeardown (st : BridgeState) : BridgeState :=
  { senderTask := st.senderTask.map (fun _ => true)
    receiverTask := st.receiverTask.map (fun _ => true)
    prewarmTask := st.prewarmTask.map (fun _ => true)
    deepgramWs := st.deepgramWs.map (fun _ => true)
    sessionKey := st.sessionKey
    registry := match st.sessionKey with
      | some key => bridgeTeardownRegistry st.registry key
      | none => st.registry
    activeCallContext := "" }

/-! ## Voice catalog and resolver (`VOICE_CATALOG`, `resolve_voice`) -/

structure VoiceInfo where
  model : String
  gender : String
  accent : String
  desc : String
deriving Repr, DecidableEq

/-- `VOICE_CATALOG` (lines 92-124), in source order. -/
def VOICE_CATALOG : List (String × VoiceInfo) :=
  [("thalia",   ⟨"aura-2-thalia-en",   "female", "American",
     "Warm, friendly female voice with a clear American accent. Great all-rounder, the default voice."⟩),
   ("orion",    ⟨"aura-2-orion-en",    "male",   "American",
     "Deep, confident male voice with a smooth American accent. Professional and authoritative."⟩),
   ("apollo",   ⟨"aura-2-apollo-en",   "male",   "American",
     "Energetic, youthful male voice with a casual American tone. Upbeat and conversational."⟩),
   ("athena",   ⟨"aura-2-athena-en",   "female", "American",
     "Articulate, polished female voice. Calm and measured delivery."⟩),
   ("luna",     ⟨"aura-2-luna-en",     "female", "American",
     "Soft, gentle female voice with a soothing quality. Relaxed and approachable."⟩),
   ("zeus",     ⟨"aura-2-zeus-en",     "male",   "American",
     "Bold, commanding male voice with a rich low register. Strong presence."⟩),
   ("draco",    ⟨"aura-2-draco-en",    "male",   "British",
     "Refined male voice with a British RP accent. Sophisticated and articulate."⟩),
   ("pandora",  ⟨"aura-2-pandora-en",  "female", "British",
     "Elegant female voice with a British accent. Warm but polished."⟩),
   ("hyperion", ⟨"aura-2-hyperion-en", "male",   "Australian",
     "Relaxed male voice with an Australian accent. Friendly and laid-back."⟩),
   ("estrella", ⟨"aura-2-estrella-es", "female", "Mexican",
     "Bright, expressive female voice in Mexican Spanish."⟩),
   ("javier",   ⟨"aura-2-javier-es",   "male",   "Mexican",
     "Clear, natural male voice in Mexican Spanish."⟩),
   ("alvaro",   ⟨"aura-2-alvaro-es",   "male",   "Spain",
     "Warm male voice in Castilian Spanish."⟩),
   ("celeste",  ⟨"aura-2-celeste-es",  "female", "Colombian",
     "Melodic female voice in Colombian Spanish."⟩),
   ("fabian",   ⟨"aura-2-fabian-de",   "male",   "German",
     "Clear, professional male voice in German."⟩),
   ("aurelia",  ⟨"aura-2-aurelia-de",  "female", "German",
     "Warm, natural female voice in German."⟩),
   ("lara",     ⟨"aura-2-lara-de",     "female", "German",
     "Bright, youthful female voice in German."⟩),
   ("hector",   ⟨"aura-2-hector-fr",   "male",   "French",
     "Smooth, natural male voice in French."⟩),
   ("agathe",   ⟨"aura-2-agathe-fr",   "female", "French",
     "Elegant, expressive female voice in French."⟩),
   ("cesare",   ⟨"aura-2-cesare-it",   "male",   "Italian",
     "Warm, expressive male voice in Italian."⟩),
   ("livia",    ⟨"aura-2-livia-it",    "female", "Italian",
     "Melodic, lively female voice in Italian."⟩),
   ("lars",     ⟨"aura-2-lars-nl",     "male",   "Dutch",
     "Clear, natural male voice in Dutch."⟩),
   ("daphne",   ⟨"aura-2-daphne-nl",   "female", "Dutch",
     "Warm, friendly female voice in Dutch."⟩),
   ("ebisu",    ⟨"aura-2-ebisu-ja",    "male",   "Japanese",
     "Natural, clear male voice in Japanese."⟩),
   ("izanami",  ⟨"aura-2-izanami-ja",  "female", "Japanese",
     "Soft, natural female voice in Japanese."⟩)]

/-- `VOICE_CATALOG[name]`, as an option. -/
def catalogFind (name : String) : Option VoiceInfo :=
  ((VOICE_CATALOG.find? (fun kv => kv.1 = name))).map (fun kv => kv.2)

/-- The accent keyword list of the fuzzy loop (lines 175-176). -/
def ACCENT_KEYWORDS : List String :=
  ["american", "british", "australian", "mexican", "spain",
   "colombian", "german", "french", "italian", "dutch", "japanese"]

/-- The fuzzy score one catalog entry receives for a (lowered, stripped)
query (lines 169-180): 3 for a gender match, 5 per accent keyword present
in both the query and the entry's accent, 10 if the entry's name occurs
in the query.  Note `"male" in q` is a substring test, so a query
containing `female` also contains `male`; the source guards the male
branch with `"female" not in q`. -/
def voiceScore (q : String) (name : String) (info : VoiceInfo) : Nat :=
  let genderPts :=
    if strIn "male" q && !(strIn "female" q) && info.gender = "male" then 3
    else if strIn "female" q && info.gender = "female" then 3
    else 0
  let accent := pyLower info.accent
  let accentPts := ACCENT_KEYWORDS.foldl
    (fun acc kw => if strIn kw q && strIn kw accent then acc + 5 else acc) 0
  let namePts := if strIn name q then 10 else 0
  genderPts + accentPts + namePts

/-- The fuzzy loop's fold over the catalog, carrying
`(best_name, best_score)`; a strictly greater score replaces the best,
so ties keep the earlier entry. -/
def fuzzyGo (q : String) : List (String × VoiceInfo) → (Option String × Nat) → (Option String × Nat)
  | [], st => st
  | (name, info) :: rest, (bestName, bestScore) =>
    let score := voiceScore q name info
    if score > bestScore then fuzzyGo q rest (some name, score)
    else fuzzyGo q rest (bestName, bestScore)

/-- The fuzzy stage of `resolve_voice` (lines 166-186): run the fold,
then `if best_name and best_score > 0` return the best entry's model.
The dict indexing `VOICE_CATALOG[best_name]` cannot fail because
`best_name` always comes from the catalog; it is modelled by the `none`
fallback of `catalogFind`. -/
def fuzzyResolve (q : String) : Option String :=
  match fuzzyGo q VOICE_CATALOG (none, 0) with
  | (some bestName, bestScore) =>
    if bestName ≠ "" && bestScore > 0 then
      match catalogFind bestName with
      | some info => some info.model
      | none => none
    else none
  | (none, _) => none

/-- `resolve_voice` (lines 148-186): exact catalog-name match, then
exact model-id match, then the fuzzy stage. -/
def resolve_voice (query : String) : Option String :=
  let q := pyStrip (pyLower query)
  match catalogFind q with
  | some info => some info.model
  | none =>
    if VOICE_CATALOG.any (fun kv => kv.2.model = q) then some q
    else fuzzyResolve q

/-! Specification-side restatement of the fuzzy stage, used to compare
the fold against the spec's description: "pick the highest-scoring entry
with score > 0, ties broken by catalog iteration order (first wins);
absent if no entry scores above zero". -/

/-- Maximum fuzzy score over a catalog fragment. -/
def maxVoiceScore (q : String) (l : List (String × VoiceInfo)) : Nat :=
  l.foldr (fun kv acc => max (voiceScore q kv.1 kv.2) acc) 0

/-- First catalog entry attaining the maximum positive score (the spec's
description of the fuzzy stage). -/
def specFuzzyPick (q : String) : Option String :=
  let m := maxVoiceScore q VOICE_CATALOG
  if m > 0 then
    (VOICE_CATALOG.find? (fun kv => voiceScore q kv.1 kv.2 = m)).map (fun kv => kv.2.model)
  else none

/-! ## Voice preference persistence (`read_voice_preference`,
`write_voice_preference`)

The preference file is modelled as `Option String`: `none` stands for
an absent or unreadable file (the `OSError` branch), `some content` for
its text. -/

/-- `read_voice_preference` (lines 131-139): strip the file contents,
return them if non-empty, else fall back to `DEEPGRAM_TTS_MODEL`. -/
def read_voice_preference (file : Option String) (defaultModel : String) : String :=
  match file with
  | none => defaultModel
  | some content =>
    let model := pyStrip content
    if model ≠ "" then model else defaultModel

/-- `write_voice_preference` (lines 142-145): the file now holds the
model plus a trailing newline. -/
def write_voice_preference (model : String) : Option String :=
  some (model ++ "\n")

/-! ## JSON values (model of the Python objects produced by `json.loads`)

Integer literals are kept as `Int`; non-integer numeric literals
(floats, `NaN`, `Infinity`) are kept verbatim as `numLit` — the float
re-formatting that `json.dumps` performs on such values is not modelled,
and a lone UTF-16 surrogate escape (legal for `json.loads`, not
representable as a Lean `Char`) makes the parser fail.  Objects are
association lists in insertion order with unique keys, matching dicts. -/

inductive Json where
  | null
  | bool (b : Bool)
  | num (n : Int)
  | numLit (lit : String)
  | str (s : String)
  | arr (items : List Json)
  | obj (fields : List (String × Json))
deriving Repr

/-- `d.get(k)` on a dict modelled as an association list. -/
def objLookup (fields : List (String × Json)) (k : String) : Option Json :=
  (fields.find? (fun kv => kv.1 = k)).map (fun kv => kv.2)

/-- `d[k] = v`: replace in place if the key exists, else append. -/
def objSet : List (String × Json) → String → Json → List (String × Json)
  | [], k, v => [(k, v)]
  | (k2, v2) :: rest, k, v =>
    if k2 = k then (k, v) :: rest else (k2, v2) :: objSet rest k v

/-- `d.pop(k, None)`: drop the binding for `k` if present. -/
def objRemove (fields : List (String × Json)) (k : String) : List (String × Json) :=
  fields.filter (fun kv => kv.1 ≠ k)

/-- Truthiness of a float literal: falsy only for a zero mantissa
(`NaN` and the infinities are truthy). -/
def jsonNumLitTruthy (lit : String) : Bool :=
  let mant := lit.toList.takeWhile (fun c => c ≠ 'e' && c ≠ 'E')
  mant.any (fun c => '1' ≤ c && c ≤ '9') || mant.any (fun c => c = 'N' || c = 'I')

/-- Python truthiness of a JSON value. -/
def pyTruthy : Json → Bool
  | .null => false
  | .bool b => b
  | .num n => n ≠ 0
  | .numLit lit => jsonNumLitTruthy lit
  | .str s => s ≠ ""
  | .arr items => !items.isEmpty
  | .obj fields => !fields.isEmpty

/-! Structural equality of JSON values, modelling the Python `==` used
by list membership (`"choices" in data` on a list).  Defined by mutual
structural recursion so that it evaluates inside the kernel. -/

mutual

def jsonEq : Json → Json → Bool
  | .null, .null => true
  | .bool a, .bool b => a = b
  | .num a, .num b => a = b
  | .numLit a, .numLit b => a = b
  | .str a, .str b => a = b
  | .arr a, .arr b => jsonListEq a b
  | .obj a, .obj b => jsonFieldsEq a b
  | _, _ => false

def jsonListEq : List Json → List Json → Bool
  | [], [] => true
  | a :: as2, b :: bs2 => jsonEq a b && jsonListEq as2 bs2
  | _, _ => false

def jsonFieldsEq : List (String × Json) → List (String × Json) → Bool
  | [], [] => true
  | a :: as2, b :: bs2 => (a.1 = b.1 && jsonEq a.2 b.2) && jsonFieldsEq as2 bs2
  | _, _ => false

end

/-! ### Parser (model of `json.loads`) -/

/-- Whitespace skipped between JSON tokens. -/
def jsonWs (c : Char) : Bool :=
  c = ' ' || c = '\t' || c = '\n' || c = '\r'

def hexVal (c : Char) : Option Nat :=
  if isPyDigit c then some (c.toNat - 48)
  else if 'a' ≤ c && c ≤ 'f' then some (c.toNat - 87)
  else if 'A' ≤ c && c ≤ 'F' then some (c.toNat - 55)
  else none

def escMap (c : Char) : Option Char :=
  if c = '"' then some '"'
  else if c = '\\' then some '\\'
  else if c = '/' then some '/'
  else if c = 'b' then some '\x08'
  else if c = 'f' then some '\x0c'
  else if c = 'n' then some '\n'
  else if c = 'r' then some '\r'
  else if c = 't' then some '\t'
  else none

/-- Parse the remainder of a JSON string after its opening quote,
returning the decoded characters and the input after the closing quote.
Unescaped control characters are rejected (strict mode); surrogate
escape pairs are combined into one scalar. -/
def parseStrChars : List Char → Option (List Char × List Char)
  | [] => none
  | c :: rest =>
    if c = '"' then some ([], rest)
    else if c = '\\' then
      match rest with
      | [] => none
      | e :: rest2 =>
        if e = 'u' then
          match rest2 with
          | h1 :: h2 :: h3 :: h4 :: rest3 =>
            match hexVal h1, hexVal h2, hexVal h3, hexVal h4 with
            | some a, some b, some c2, some d =>
              let n := ((a * 16 + b) * 16 + c2) * 16 + d
              if 0xD800 ≤ n && n ≤ 0xDBFF then
                match rest3 with
                | '\\' :: 'u' :: g1 :: g2 :: g3 :: g4 :: rest4 =>
                  match hexVal g1, hexVal g2, hexVal g3, hexVal g4 with
                  | some a2, some b2, some c3, some d2 =>
                    let m := ((a2 * 16 + b2) * 16 + c3) * 16 + d2
                    if 0xDC00 ≤ m && m ≤ 0xDFFF then
                      let cp := 0x10000 + (n - 0xD800) * 0x400 + (m - 0xDC00)
                      (parseStrChars rest4).map (fun p => (Char.ofNat cp :: p.1, p.2))
                    else none
                  | _, _, _, _ => none
                | _ => none
              else if 0xDC00 ≤ n && n ≤ 0xDFFF then none
              else (parseStrChars rest3).map (fun p => (Char.ofNat n :: p.1, p.2))
            | _, _, _, _ => none
          | _ => none
        else
          match escMap e with
          | some ec => (parseStrChars rest2).map (fun p => (ec :: p.1, p.2))
          | none => none
    else if c.toNat < 0x20 then none
    else (parseStrChars rest).map (fun p => (c :: p.1, p.2))

/-- Parse a numeric token (including `NaN` / `Infinity` / `-Infinity`,
which `json.loads` accepts by default).  A pure integer becomes `num`;
anything with a fraction or exponent keeps its lexeme as `numLit`. -/
def parseNum (l : List Char) : Option (Json × List Char) :=
  if ("NaN".toList).isPrefixOf l then some (.numLit "NaN", l.drop 3)
  else if ("Infinity".toList).isPrefixOf l then some (.numLit "Infinity", l.drop 8)
  else if ("-Infinity".toList).isPrefixOf l then some (.numLit "-Infinity", l.drop 9)
  else
    let neg := match l with
      | '-' :: _ => true
      | _ => false
    let l1 := if neg then l.drop 1 else l
    let ip := l1.takeWhile isPyDigit
    let r1 := l1.dropWhile isPyDigit
    if ip.isEmpty then none
    else if ip.length > 1 && ip.head? = some '0' then none
    else
      let fracPair : Option (List Char) × List Char :=
        match r1 with
        | '.' :: r =>
          let ds := r.takeWhile isPyDigit
          if ds.isEmpty then (none, r1) else (some ds, r.dropWhile isPyDigit)
        | _ => (none, r1)
      let frac := fracPair.1
      let r2 := fracPair.2
      let expPair : Option (List Char) × List Char :=
        match r2 with
        | e :: r =>
          if e = 'e' || e = 'E' then
            match r with
            | s :: r4 =>
              if s = '+' || s = '-' then
                let ds := r4.takeWhile isPyDigit
                if ds.isEmpty then (none, r2)
                else (some (e :: s :: ds), r4.dropWhile isPyDigit)
              else
                let ds := r.takeWhile isPyDigit
                if ds.isEmpty then (none, r2)
                else (some (e :: ds), r.dropWhile isPyDigit)
            | [] => (none, r2)
          else (none, r2)
        | [] => (none, r2)
      let expPart := expPair.1
      let r3 := expPair.2
      match frac, expPart with
      | none, none =>
        let v : Int := ip.foldl (fun acc c => acc * 10 + ((c.toNat : Int) - 48)) 0
        some (.num (if neg then -v else v), r3)
      | _, _ =>
        let lex := (if neg then ['-'] else []) ++ ip
          ++ (match frac with | some ds => '.' :: ds | none => [])
          ++ (match expPart with | some es => es | none => [])
        some (.numLit (String.mk lex), r3)

/-- Parser state: a value, the inside of an array, or the inside of an
object (with the fields accumulated so far; duplicate keys overwrite in
place, like successive dict assignments). -/
inductive PMode where
  | val
  | arrStart
  | arrVal (acc : List Json)
  | objStart
  | objVal (acc : List (String × Json))

/-- Fuel-based recursive-descent core of `json.loads`. -/
def parseCore : Nat → PMode → List Char → Option (Json × List Char)
  | 0, _, _ => none
  | fuel + 1, .val, l =>
    let l1 := l.dropWhile jsonWs
    match l1 with
    | [] => none
    | c :: rest =>
      if c = '\x7b' then parseCore fuel .objStart rest
      else if c = '[' then parseCore fuel .arrStart rest
      else if c = '"' then (parseStrChars rest).map (fun p => (Json.str (String.mk p.1), p.2))
      else if c = 't' then
        if ("rue".toList).isPrefixOf rest then some (.bool true, rest.drop 3) else none
      else if c = 'f' then
        if ("alse".toList).isPrefixOf rest then some (.bool false, rest.drop 4) else none
      else if c = 'n' then
        if ("ull".toList).isPrefixOf rest then some (.null, rest.drop 3) else none
      else parseNum l1
  | fuel + 1, .arrStart, l =>
    let l1 := l.dropWhile jsonWs
    match l1 with
    | ']' :: r => some (.arr [], r)
    | _ => parseCore fuel (.arrVal []) l1
  | fuel + 1, .arrVal acc, l =>
    match parseCore fuel .val l with
    | some (v, r) =>
      let r1 := r.dropWhile jsonWs
      match r1 with
      | ']' :: r2 => some (.arr (acc ++ [v]), r2)
      | ',' :: r2 => parseCore fuel (.arrVal (acc ++ [v])) r2
      | _ => none
    | none => none
  | fuel + 1, .objStart, l =>
    let l1 := l.dropWhile jsonWs
    match l1 with
    | '\x7d' :: r => some (.obj [], r)
    | _ => parseCore fuel (.objVal []) l1
  | fuel + 1, .objVal acc, l =>
    let l1 := l.dropWhile jsonWs
    match l1 with
    | '"' :: r =>
      match parseStrChars r with
      | some (kcs, r1) =>
        let r2 := r1.dropWhile jsonWs
        match r2 with
        | ':' :: r3 =>
          match parseCore fuel .val r3 with
          | some (v, r4) =>
            let acc2 := objSet acc (String.mk kcs) v
            let r5 := r4.dropWhile jsonWs
            match r5 with
            | '\x7d' :: r6 => some (.obj acc2, r6)
            | ',' :: r6 => parseCore fuel (.objVal acc2) r6
            | _ => none
          | none => none
        | _ => none
      | none => none
    | _ => none

/-- `json.loads`: parse one value and require only whitespace after it. -/
def parseJson (s : String) : Option Json :=
  match parseCore (4 * s.length + 8) .val s.toList with
  | some (v, rest) => if (rest.dropWhile jsonWs).isEmpty then some v else none
  | none => none

/-! ### Serializer (model of `json.dumps` with default options) -/

/-- Lowercase hex digit. -/
def hexDigit (n : Nat) : Char :=
  if n < 10 then Char.ofNat (48 + n) else Char.ofNat (87 + n)

def uescape (n : Nat) : List Char :=
  ['\\', 'u', hexDigit (n / 4096 % 16), hexDigit (n / 256 % 16),
   hexDigit (n / 16 % 16), hexDigit (n % 16)]

/-- Escape one character as `json.dumps` does with `ensure_ascii=True`. -/
def dumpsEscChar (c : Char) : List Char :=
  if c = '"' then ['\\', '"']
  else if c = '\\' then ['\\', '\\']
  else if c = '\n' then ['\\', 'n']
  else if c = '\r' then ['\\', 'r']
  else if c = '\t' then ['\\', 't']
  else if c = '\x08' then ['\\', 'b']
  else if c = '\x0c' then ['\\', 'f']
  else if c.toNat < 0x20 then uescape c.toNat
  else if c.toNat < 0x7f then [c]
  else if c.toNat < 0x10000 then uescape c.toNat
  else
    let n := c.toNat - 0x10000
    uescape (0xD800 + n / 0x400) ++ uescape (0xDC00 + n % 0x400)

def dumpsString (s : String) : String :=
  String.mk ('"' :: ((s.toList.map dumpsEscChar).flatten ++ ['"']))

/-! `json.dumps` with its default options: separators `", "` and
`": "`, ASCII escaping.  Mutual recursion over the value, the items of
an array, and the fields of an object. -/

mutual

def dumpsJson : Json → String
  | .null => "null"
  | .bool b => if b then "true" else "false"
  | .num n => toString n
  | .numLit lit => lit
  | .str s => dumpsString s
  | .arr items => "[" ++ dumpsItems items ++ "]"
  | .obj fields => "\x7b" ++ dumpsFields fields ++ "\x7d"

def dumpsItems : List Json → String
  | [] => ""
  | [j] => dumpsJson j
  | j :: rest => dumpsJson j ++ ", " ++ dumpsItems rest

def dumpsFields : List (String × Json) → String
  | [] => ""
  | [kv] => dumpsString kv.1 ++ ": " ++ dumpsJson kv.2
  | kv :: rest => dumpsString kv.1 ++ ": " ++ dumpsJson kv.2 ++ ", " ++ dumpsFields rest

end

/-! ## Streaming rewriter (`stream_response`, lines 630-659)

`transformChunk` models the block

```
data = json.loads(line[6:])
if 'choices' in data and data['choices']:
    delta = data['choices'][0].get('delta', {})
    if 'content' in delta and delta['content']:
        delta['content'] = strip_markdown(delta['content'])
yield f"data: {json.dumps(data)}\n\n"
```

returning `some` of the (possibly rewritten) value, or `none` when the
Python code raises an exception that the surrounding `try` does NOT
catch (it only catches `json.JSONDecodeError`): membership tests on
non-container values raise `TypeError`, indexing a string or dict with
`[0]` raises, `.get` on a non-dict raises `AttributeError`, and
`re.sub` applied to a non-string raises `TypeError`.  The mutation of
`delta` is modelled by rebuilding the nested object in place. -/

def transformChunkWith (strip : String → String) (d : Json) : Option Json :=
  match d with
  | .obj fs =>
    match objLookup fs "choices" with
    | none => some d
    | some v =>
      if pyTruthy v then
        match v with
        | .arr [] => some d
        | .arr (c0 :: rest) =>
          match c0 with
          | .obj f0 =>
            match objLookup f0 "delta" with
            | none => some d
            | some dv =>
              match dv with
              | .obj df =>
                match objLookup df "content" with
                | none => some d
                | some cv =>
                  if pyTruthy cv then
                    match cv with
                    | .str s =>
                      some (.obj (objSet fs "choices" (.arr (.obj (objSet f0 "delta"
                        (.obj (objSet df "content" (.str (strip s))))) :: rest))))
                    | _ => none
                  else some d
              | .str s2 => if strIn "content" s2 then none else some d
              | .arr l2 => if l2.any (fun x => jsonEq x (.str "content")) then none else some d
              | _ => none
          | _ => none
        | .str _ => none
        | .obj _ => none
        | _ => none
      else some d
  | .str s => if strIn "choices" s then none else some d
  | .arr l => if l.any (fun x => jsonEq x (.str "choices")) then none else some d
  | _ => none

/-- One step of the stream-processing generator.  `skip` models
`continue` (nothing yielded), `emit` a `yield`, and `crash` an uncaught
exception aborting the generator mid-stream. -/
inductive StreamStep where
  | skip
  | emit (chunk : String)
  | crash
deriving Repr, DecidableEq

/-- Processing of one line from `response.aiter_lines()`.  The
`strip` argument is the text transform applied to delta fragments
(instantiated with `strip_markdown` below, once it is defined). -/
def processLineWith (strip : String → String) (line : String) : StreamStep :=
  if line = "" then .skip
  else if ("data: ".toList).isPrefixOf line.toList && line ≠ "data: [DONE]" then
    match parseJson (String.mk (line.toList.drop 6)) with
    | none => .emit (line ++ "\n\n")
    | some d =>
      match transformChunkWith strip d with
      | some d2 => .emit ("data: " ++ dumpsJson d2 ++ "\n\n")
      | none => .crash
  else if pyStrip line ≠ "" then .emit (line ++ "\n\n")
  else .skip

/-- The whole generator over the backend lines: the chunks yielded, in
order, plus a flag recording whether an uncaught exception aborted the
stream (dropping everything after its position). -/
def runStreamWith (strip : String → String) : List String → List String × Bool
  | [] => ([], false)
  | line :: rest =>
    match processLineWith strip line with
    | .skip => runStreamWith strip rest
    | .emit chunk =>
      let r := runStreamWith strip rest
      (chunk :: r.1, r.2)
    | .crash => ([], true)

/-- The chunk a `StreamStep` contributes to the output stream. -/
def stepChunk : StreamStep → Option String
  | .skip => none
  | .emit chunk => some chunk
  | .crash => none

/-! ## Prompt assembler (`build_shared_persona_prompt`, lines 370-398)

The workspace is modelled by a function from file name to the stripped
contents that `load_workspace_prompt_file` returns (the empty string
standing for a missing, unreadable or empty file). -/

def personaSections : List (String × String) :=
  [("SOUL.md", "SOUL"), ("IDENTITY.md", "IDENTITY"), ("USER.md", "USER")]

def personaChunks (files : String → String) : List String :=
  personaSections.filterMap (fun fl =>
    let content := files fl.1
    if content ≠ "" then some ("[" ++ fl.2 ++ "] (" ++ fl.1 ++ ")\n" ++ content)
    else none)

def personaHeader : String :=
  "Use this as the canonical OpenClaw personality and relationship context.\n" ++
  "Prioritize these sections in order, while staying concise for voice.\n\n"

def truncMarker : String := "\n\n[PERSONA TRUNCATED]"

/-- The prompt before the length check. -/
def personaAssembled (files : String → String) : String :=
  personaHeader ++ String.intercalate "\n\n" (personaChunks files)

/-- `build_shared_persona_prompt`, parameterised by the two environment
variables it reads (`VOICE_SHARED_PERSONA_ENABLED`,
`VOICE_PERSONA_MAX_CHARS`). -/
def build_shared_persona_prompt (enabledEnv : Option String) (files : String → String)
    (maxCharsEnv : Option String) : String :=
  if !(asBoolEnv enabledEnv true) then ""
  else if (personaChunks files).isEmpty then ""
  else
    let prompt := personaAssembled files
    let maxChars := asIntEnv maxCharsEnv 12000
    if prompt.length > maxChars then
      String.mk (rstripL (prompt.toList.take maxChars)) ++ truncMarker
    else prompt

/-! ## Completion-proxy body transform (`proxy_chat_completions`,
lines 585-612)

The behaviour-policy overlay text
(`build_voice_behavior_overlay_prompt`) depends on `CONTROL_API_TOKEN`
and `PORT` and its literal contents are irrelevant to every claim, so it
is passed in as an opaque string; the current UTC time and the recorded
outbound-call context (`_active_call_context`) are likewise
parameters. -/

/-- One injected message: `{"role": "developer", "content": ...}`. -/
def devMsg (content : String) : Json :=
  .obj [("role", .str "developer"), ("content", .str content)]

/-- The `injected_messages` list built in lines 590-604. -/
def proxyInjectedMessages (personaPrompt overlayPrompt nowUtc callContext : String) :
    List Json :=
  let injected0 : List Json := []
  let injected1 :=
    if personaPrompt ≠ "" then injected0 ++ [devMsg personaPrompt] else injected0
  let injected2 := injected1 ++ [devMsg overlayPrompt]
  let injected3 := injected2 ++ [devMsg ("Current UTC time: " ++ nowUtc)]
  if callContext ≠ "" then
    injected3 ++
      [devMsg ("You are on an outbound call you initiated. Reason: " ++ callContext)]
  else injected3

/-- The body rewriting of `proxy_chat_completions` (lines 585-612):
default malformed `messages` to `[]`, prepend the injected prefix,
override `model`, pop `tools` and `tool_choice`. -/
def proxyTransformBody (body : List (String × Json))
    (personaPrompt overlayPrompt nowUtc callContext : String) : List (String × Json) :=
  let messages := match objLookup body "messages" with
    | some (.arr l) => l
    | _ => []
  let injected := proxyInjectedMessages personaPrompt overlayPrompt nowUtc callContext
  let body1 := objSet body "messages" (.arr (injected ++ messages))
  let body2 := objSet body1 "model" (.str "openclaw/voice")
  objRemove (objRemove body2 "tools") "tool_choice"

/-- Specification-side description of the injected prefix: persona block
when enabled and non-empty, then the behaviour-policy block, then the
current-UTC-time block, then the outbound-call-context block only when a
context is recorded. -/
def specInjectedPrefix (personaPrompt overlayPrompt nowUtc callContext : String) :
    List Json :=
  (if personaPrompt ≠ "" then [devMsg personaPrompt] else []) ++
  [devMsg overlayPrompt, devMsg ("Current UTC time: " ++ nowUtc)] ++
  (if callContext ≠ "" then
    [devMsg ("You are on an outbound call you initiated. Reason: " ++ callContext)]
  else [])

/-- The caller-supplied message list, defaulting to empty when `messages`
is absent or not a list. -/
def callerMessages (body : List (String × Json)) : List Json :=
  match objLookup body "messages" with
  | some (.arr l) => l
  | _ => []

/-! ## Text transform (`strip_markdown`, lines 543-570)

Each `re.sub` pass is modelled by a scanner that walks the string left
to right, attempting the pattern at each position exactly as the regex
engine does: on a match the replacement is emitted and scanning resumes
after the match (replacements are never rescanned), otherwise the
character is kept.  Every pattern in the source either has no viable
backtracking (a greedy `[^x]+` run is maximal, and shrinking it leaves a
non-`x` character where `x` is required) or is lazy up to the first
closing delimiter, so each `attempt` function below is deterministic. -/

/-- One anchor-free `re.sub` pass.  `attempt` tries the pattern at the
head, returning the replacement and the input after the match.  All
patterns consume at least one character, so `fuel = length` suffices. -/
def scanSub (attempt : List Char → Option (List Char × List Char)) :
    Nat → List Char → List Char
  | 0, l => l
  | _ + 1, [] => []
  | fuel + 1, c :: rest =>
    match attempt (c :: rest) with
    | some (repl, after) => repl ++ scanSub attempt fuel after
    | none => c :: scanSub attempt fuel rest

/-- One `re.sub` pass for a `re.MULTILINE` pattern anchored at `^`: the
pattern is attempted only at the start of the input or just after a
newline.  `attempt` additionally reports whether the last character it
consumed was a newline (`\s+` may swallow newlines), which decides
whether the next position is again a line start. -/
def scanSubML (attempt : List Char → Option (List Char × Bool × List Char)) :
    Nat → Bool → List Char → List Char
  | 0, _, l => l
  | _ + 1, _, [] => []
  | fuel + 1, atStart, c :: rest =>
    match (if atStart then attempt (c :: rest) else none) with
    | some (repl, newStart, after) => repl ++ scanSubML attempt fuel newStart after
    | none => c :: scanSubML attempt fuel (c = '\n') rest

/-- Find the earliest closing triple backquote (the lazy `[\s\S]*?`),
returning the input just after it. -/
def findTripleBQ : List Char → Option (List Char)
  | c1 :: c2 :: c3 :: rest =>
    if c1 = '\x60' && c2 = '\x60' && c3 = '\x60' then some rest
    else findTripleBQ (c2 :: c3 :: rest)
  | _ => none

/-- Pattern 1: triple-backquote code blocks, removed. -/
def tryCodeBlock : List Char → Option (List Char × List Char)
  | c1 :: c2 :: c3 :: rest =>
    if c1 = '\x60' && c2 = '\x60' && c3 = '\x60' then
      (findTripleBQ rest).map (fun after => ([], after))
    else none
  | _ => none

/-- Patterns of shape `d([^d]+)d` (inline code with a backquote, italic
with `*` or `_`), replaced by the capture. -/
def tryDelim1 (d : Char) (l : List Char) : Option (List Char × List Char) :=
  match l with
  | [] => none
  | c :: rest =>
    if c = d then
      let content := rest.takeWhile (fun x => x != d)
      match rest.dropWhile (fun x => x != d) with
      | _ :: r2 => if content.isEmpty then none else some (content, r2)
      | [] => none
    else none

/-- Patterns of shape `dd([^d]+)dd` (bold with `**`, bold with `__`),
replaced by the capture. -/
def tryDelim2 (d : Char) (l : List Char) : Option (List Char × List Char) :=
  match l with
  | c1 :: c2 :: rest =>
    if c1 = d && c2 = d then
      let content := rest.takeWhile (fun x => x != d)
      match rest.dropWhile (fun x => x != d) with
      | a1 :: a2 :: r2 =>
        if a1 = d && a2 = d && !content.isEmpty then some (content, r2) else none
      | _ => none
    else none
  | _ => none

/-- Pattern `^#{1,6}\s+` (headers): one to six hashes then whitespace;
seven or more hashes never match (shrinking the greedy `#{1,6}` leaves a
hash where `\s` is required). -/
def tryHeader (l : List Char) : Option (List Char × Bool × List Char) :=
  let hashes := l.takeWhile (fun c => c = '#')
  if hashes.isEmpty || hashes.length > 6 then none
  else
    let rest := l.dropWhile (fun c => c = '#')
    let ws := rest.takeWhile isPySpace
    if ws.isEmpty then none
    else some ([], ws.getLast? == some '\n', rest.dropWhile isPySpace)

def isBulletMarker (c : Char) : Bool :=
  c = '-' || c = '*' || c = '+'

def isQuoteMarker (c : Char) : Bool :=
  c = '>'

/-- Patterns `^\s*[-*+]\s+` (bullets) and `^\s*>\s+` (blockquotes):
leading whitespace, one marker character, then whitespace. -/
def tryLinePrefix (isMarker : Char → Bool) (l : List Char) :
    Option (List Char × Bool × List Char) :=
  match l.dropWhile isPySpace with
  | [] => none
  | c :: r =>
    if isMarker c then
      let ws2 := r.takeWhile isPySpace
      if ws2.isEmpty then none
      else some ([], ws2.getLast? == some '\n', r.dropWhile isPySpace)
    else none

/-- Pattern `^\s*\d+\.\s+` (numbered lists). -/
def tryNumbered (l : List Char) : Option (List Char × Bool × List Char) :=
  let rest := l.dropWhile isPySpace
  let digits := rest.takeWhile isPyDigit
  if digits.isEmpty then none
  else
    match rest.dropWhile isPyDigit with
    | '.' :: r =>
      let ws2 := r.takeWhile isPySpace
      if ws2.isEmpty then none
      else some ([], ws2.getLast? == some '\n', r.dropWhile isPySpace)
    | _ => none

/-- Pattern `\[([^\]]+)\]\([^)]+\)` (links), replaced by the link text. -/
def tryLink (l : List Char) : Option (List Char × List Char) :=
  match l with
  | [] => none
  | c :: rest =>
    if c = '[' then
      let txt := rest.takeWhile (fun x => x != ']')
      if txt.isEmpty then none
      else
        match rest.dropWhile (fun x => x != ']') with
        | ']' :: '(' :: r2 =>
          let url := r2.takeWhile (fun x => x != ')')
          if url.isEmpty then none
          else
            match r2.dropWhile (fun x => x != ')') with
            | ')' :: r3 => some (txt, r3)
            | _ => none
        | _ => none
    else none

/-- Pattern `!\[([^\]]*)\]\([^)]+\)` (images), removed.  Note the link
pass runs first in the pipeline, mirroring the source order. -/
def tryImage : List Char → Option (List Char × List Char)
  | c1 :: c2 :: rest =>
    if c1 = '!' && c2 = '[' then
      match rest.dropWhile (fun x => x != ']') with
      | ']' :: '(' :: r2 =>
        let url := r2.takeWhile (fun x => x != ')')
        if url.isEmpty then none
        else
          match r2.dropWhile (fun x => x != ')') with
          | ')' :: r3 => some ([], r3)
          | _ => none
      | _ => none
    else none
  | _ => none

/-- Split a character list just before its last newline. -/
def splitLastNL : List Char → Option (List Char × List Char)
  | [] => none
  | c :: r =>
    match splitLastNL r with
    | some (b, rest) => some (c :: b, rest)
    | none => if c = '\n' then some ([], c :: r) else none

/-- Pattern `^[-*_]{3,}\s*$` (horizontal rules): at least three rule
characters, then greedy whitespace backtracking to the nearest position
where `$` holds — the end of the input, or just before the last newline
inside the whitespace run. -/
def tryHr (l : List Char) : Option (List Char × Bool × List Char) :=
  let run := l.takeWhile (fun c => c = '-' || c = '*' || c = '_')
  if run.length < 3 then none
  else
    let rest := l.dropWhile (fun c => c = '-' || c = '*' || c = '_')
    let ws := rest.takeWhile isPySpace
    let after := rest.dropWhile isPySpace
    if after.isEmpty then some ([], true, [])
    else
      match splitLastNL ws with
      | some (b, nlrest) => some ([], b.getLast? == some '\n', nlrest ++ after)
      | none => none

/-- The emoji ranges removed by the source (one combined pass). -/
def isEmojiStripped (c : Char) : Bool :=
  let n := c.toNat
  (0x1F600 ≤ n && n ≤ 0x1F64F) || (0x1F300 ≤ n && n ≤ 0x1F5FF) ||
  (0x1F680 ≤ n && n ≤ 0x1F6FF) || (0x1F1E0 ≤ n && n ≤ 0x1F1FF) ||
  (0x2702 ≤ n && n ≤ 0x27B0) || (0x1F900 ≤ n && n ≤ 0x1F9FF)

/-- Pattern `\n+`, replaced by a single space. -/
def tryNewlines : List Char → Option (List Char × List Char)
  | [] => none
  | c :: rest =>
    if c = '\n' then some ([' '], rest.dropWhile (fun x => x = '\n')) else none

def stripStage (attempt : List Char → Option (List Char × List Char))
    (l : List Char) : List Char :=
  scanSub attempt l.length l

def stripStageML (attempt : List Char → Option (List Char × Bool × List Char))
    (l : List Char) : List Char :=
  scanSubML attempt l.length true l

/-- `strip_markdown` (lines 543-570): the fifteen `re.sub` passes in
source order. -/
def strip_markdown (text : String) : String :=
  let l0 := text.toList
  let l1 := stripStage tryCodeBlock l0
  let l2 := stripStage (tryDelim1 '\x60') l1
  let l3 := stripStage (tryDelim2 '*') l2
  let l4 := stripStage (tryDelim1 '*') l3
  let l5 := stripStage (tryDelim2 '_') l4
  let l6 := stripStage (tryDelim1 '_') l5
  let l7 := stripStageML tryHeader l6
  let l8 := stripStageML (tryLinePrefix isBulletMarker) l7
  let l9 := stripStageML tryNumbered l8
  let l10 := stripStage tryLink l9
  let l11 := stripStage tryImage l10
  let l12 := stripStageML tryHr l11
  let l13 := stripStageML (tryLinePrefix isQuoteMarker) l12
  let l14 := l13.filter (fun c => !(isEmojiStripped c))
  let l15 := stripStage tryNewlines l14
  String.mk l15

/-- The stream rewriter instantiated with the real text transform. -/
def transformChunk (d : Json) : Option Json :=
  transformChunkWith strip_markdown d

def processLine (line : String) : StreamStep :=
  processLineWith strip_markdown line

def runStream (lines : List String) : List String × Bool :=
  runStreamWith strip_markdown lines

/-! ## Base64 (`base64.b64encode` / `base64.b64decode`)

`b64decode` is called with `validate=False`, so characters outside the
alphabet are discarded before decoding; a total length that is not a
multiple of four raises `binascii.Error` (modelled as `none`), and
padding is accepted only in the final group (stray padding, which the
C library treats leniently, is not exercised by the wire data and is
modelled as a failure). -/

def isB64Char (c : Char) : Bool :=
  ('A' ≤ c && c ≤ 'Z') || ('a' ≤ c && c ≤ 'z') || ('0' ≤ c && c ≤ '9') ||
  c = '+' || c = '/'

def b64Val (c : Char) : Nat :=
  if 'A' ≤ c && c ≤ 'Z' then c.toNat - 65
  else if 'a' ≤ c && c ≤ 'z' then c.toNat - 97 + 26
  else if '0' ≤ c && c ≤ '9' then c.toNat - 48 + 52
  else if c = '+' then 62
  else 63

def b64Char (n : Nat) : Char :=
  if n < 26 then Char.ofNat (65 + n)
  else if n < 52 then Char.ofNat (97 + (n - 26))
  else if n < 62 then Char.ofNat (48 + (n - 52))
  else if n = 62 then '+'
  else '/'

/-- Decode groups of four alphabet/padding characters into bytes. -/
def b64DecodeGroups : List Char → Option (List Nat)
  | [] => some []
  | a :: b :: c :: d :: rest =>
    if a = '=' || b = '=' then none
    else
      let n := ((b64Val a * 64 + b64Val b) * 64 + b64Val c) * 64 + b64Val d
      if c = '=' then
        if d = '=' && rest.isEmpty then some [(b64Val a * 64 + b64Val b) / 16]
        else none
      else if d = '=' then
        if rest.isEmpty then
          some [((b64Val a * 64 + b64Val b) * 64 + b64Val c) / 1024,
                ((b64Val a * 64 + b64Val b) * 64 + b64Val c) / 4 % 256]
        else none
      else
        (b64DecodeGroups rest).map (fun bs => n / 65536 :: n / 256 % 256 :: n % 256 :: bs)
  | _ => none

def b64decode (s : String) : Option (List Nat) :=
  b64DecodeGroups (s.toList.filter (fun c => isB64Char c || c = '='))

/-- `base64.b64encode` on a byte list. -/
def b64encode : List Nat → String
  | [] => ""
  | [x] =>
    String.mk [b64Char (x % 256 / 4), b64Char (x % 256 % 4 * 16), '=', '=']
  | [x, y] =>
    String.mk [b64Char (x % 256 / 4), b64Char (x % 256 % 4 * 16 + y % 256 / 16),
               b64Char (y % 256 % 16 * 4), '=']
  | x :: y :: z :: rest =>
    String.mk [b64Char (x % 256 / 4), b64Char (x % 256 % 4 * 16 + y % 256 / 16),
               b64Char (y % 256 % 16 * 4 + z % 256 / 64), b64Char (z % 256 % 64)]
      ++ b64encode rest

/-! ## Media bridge: inbound Twilio loop and sender task
(`twilio_media_websocket`, lines 956-970 and 831-839)

The streaming-phase loop reads Twilio events; a `media` event with a
non-empty payload is base64-decoded and enqueued with `put_nowait`, a
`stop` event breaks the loop, other events are ignored.  A decode error
raises and aborts the loop (later events are never processed).  The
sender task dequeues frames one at a time in FIFO order and writes each
to the Deepgram socket. -/

inductive TwEvent where
  | media (payload : String)
  | stop
  | connected
  | other (kind : String)
deriving Repr, DecidableEq

/-- The streaming-phase receive loop: the frames enqueued in order, and
whether the loop was aborted by an exception (bad base64). -/
def twilioStreamLoop : List TwEvent → List (List Nat) × Bool
  | [] => ([], false)
  | .media payload :: rest =>
    if payload ≠ "" then
      match b64decode payload with
      | some frame =>
        let r := twilioStreamLoop rest
        (frame :: r.1, r.2)
      | none => ([], true)
    else twilioStreamLoop rest
  | .stop :: _ => ([], false)
  | .connected :: rest => twilioStreamLoop rest
  | .other _ :: rest => twilioStreamLoop rest

/-- The `send_to_deepgram` task: dequeue and forward each frame in
order (the socket is connected, `if deepgram_ws` holds). -/
def sendToDeepgram : List (List Nat) → List (List Nat)
  | [] => []
  | frame :: rest => frame :: sendToDeepgram rest

/-- Specification-side description of claim C4: the base64-decoded
payloads of the media events, in arrival order. -/
def specDecodedPayloads (events : List TwEvent) : List (List Nat) :=
  events.filterMap (fun e =>
    match e with
    | .media payload => b64decode payload
    | _ => none)

/-! ## Media bridge: Deepgram receive task (`receive_from_deepgram`,
lines 842-891)

Messages from the Deepgram socket are binary audio or JSON text
events.  Binary audio is forwarded to Twilio as a `media` message with
a base64 payload once the stream id is known.  A `UserStartedSpeaking`
event triggers the barge-in `clear` message.  A text message that is
not a JSON object makes the handler raise, which the generic `except`
turns into a `break` ending the task. -/

inductive DgMsg where
  | binary (audio : List Nat)
  | text (payload : String)
deriving Repr, DecidableEq

inductive TwOut where
  | media (streamSid : String) (payload : String)
  | clear (streamSid : String)
deriving Repr, DecidableEq

/-- Truthiness of the `stream_sid` local (`if stream_sid:`). -/
def sidTruthy : Option String → Bool
  | some sid => sid ≠ ""
  | none => false

/-- `event.get("type", "")` on a parsed JSON object; a non-string value
compares unequal to every branch label, which the default `""` also
does. -/
def dgEventType (fields : List (String × Json)) : String :=
  match objLookup fields "type" with
  | some (.str s) => s
  | _ => ""

/-- Handling of one Deepgram message: the Twilio messages it sends, or
`none` when the handler raises and the task breaks. -/
def dgStep (streamSid : Option String) : DgMsg → Option (List TwOut)
  | .binary audio =>
    match streamSid with
    | some sid => if sid ≠ "" then some [.media sid (b64encode audio)] else some []
    | none => some []
  | .text payload =>
    match parseJson payload with
    | some (.obj fields) =>
      if dgEventType fields = "UserStartedSpeaking" then
        match streamSid with
        | some sid => if sid ≠ "" then some [.clear sid] else some []
        | none => some []
      else some []
    | _ => none

/-- The receive task over a message sequence: concatenated outputs, and
nothing after the first handler failure. -/
def dgRun (streamSid : Option String) : List DgMsg → List TwOut
  | [] => []
  | m :: rest =>
    match dgStep streamSid m with
    | some outs => outs ++ dgRun streamSid rest
    | none => []

/-! ## Remaining specification-side definitions -/

/-- A character that can take part in no formatting pattern of
`strip_markdown`: not a backquote, star, underscore, hash, hyphen,
plus, greater-than, bracket, bang, newline, digit or stripped emoji. -/
def markerFree (c : Char) : Bool :=
  !(c = '\x60' || c = '*' || c = '_' || c = '#' || c = '-' || c = '+' ||
    c = '>' || c = '[' || c = '!' || c = '\n' || isPyDigit c || isEmojiStripped c)

/-- What claim C5 predicts for the registry after teardown: exactly the
entries whose value differs from the session key survive. -/
def specTeardownRegistry (reg : Registry) (sessionKey : String) : Registry :=
  reg.filter (fun kv => kv.2 ≠ sessionKey)

/-! # Theorems

Helper lemmas first, then one theorem per claim (with its witness or
counterexample where required). -/

/-! # Helper lemmas -/

theorem registryLookup_registrySet_self (reg : Registry) (k v : String) :
    registryLookup (registrySet reg k v) k = some v := by
  induction reg with
  | nil => simp [registrySet, registryLookup]
  | cons kv rest ih =>
    obtain ⟨k2, v2⟩ := kv
    by_cases h : k2 = k
    · simp [registrySet, h, registryLookup]
    · simpa [registrySet, h, registryLookup] using ih

theorem sessionKeyFor_ne_empty (ownerPhone : String) : sessionKeyFor ownerPhone ≠ "" := by
  intro h
  have := congrArg String.length h
  simp [sessionKeyFor, String.length_append] at this
  exact absurd this.1 (by decide)

theorem mem_bridgeTeardownRegistry (reg : Registry) (key : String) (kv : String × String)
    (h : kv ∈ bridgeTeardownRegistry reg key) : kv.1 ≠ "_current" := by
  simp [bridgeTeardownRegistry, registryEraseValue, registryPop, List.mem_filter] at h
  exact h.2.2

theorem registryLookup_teardown_current (reg : Registry) (key : String) :
    registryLookup (bridgeTeardownRegistry reg key) "_current" = none := by
  simp only [registryLookup, Option.map_eq_none']
  rw [List.find?_eq_none]
  intro kv hm
  simpa using mem_bridgeTeardownRegistry reg key kv hm

/-- C1: immediately after the start event of a call is processed, the
bridge has registered its session key under the public URL and the
`"_current"` sentinel, so a completion-proxy request carrying no call
identifier resolves `"_current"` to that key and attaches it as the
`X-OpenClaw-Session-Key` header on the forwarded request; after the
teardown of that same call (no other call having become current in
between) the lookup of `"_current"` returns absent. -/
theorem claim1_session_correlation (reg : Registry) (publicUrl ownerPhone gatewayToken : String) :
    proxyCurrentSessionKey (bridgeStartRegister reg publicUrl ownerPhone) =
      some (sessionKeyFor ownerPhone) ∧
    ("X-OpenClaw-Session-Key", sessionKeyFor ownerPhone) ∈
      proxyForwardHeaders (bridgeStartRegister reg publicUrl ownerPhone) gatewayToken ∧
    proxyCurrentSessionKey
      (bridgeTeardownRegistry (bridgeStartRegister reg publicUrl ownerPhone)
        (sessionKeyFor ownerPhone)) = none := by
  refine ⟨?_, ?_, ?_⟩
  · simp [proxyCurrentSessionKey, bridgeStartRegister, registryLookup_registrySet_self]
  · simp [proxyForwardHeaders, proxyCurrentSessionKey, bridgeStartRegister,
      registryLookup_registrySet_self, sessionKeyFor_ne_empty]
  · exact registryLookup_teardown_current ..

theorem stringMk_toList (s : String) : String.mk s.toList = s := rfl

theorem rstripL_append_newline (l : List Char) : rstripL (l ++ ['\n']) = rstripL l := by
  simp [rstripL, List.reverse_append, List.dropWhile_cons, isPySpace]

theorem lstripL_eq_self (l : List Char) (h : ∀ c, l.head? = some c → isPySpace c = false) :
    lstripL l = l := by
  cases l with
  | nil => rfl
  | cons c cs => simp [lstripL, List.dropWhile_cons, h c rfl]

theorem rstripL_eq_self (l : List Char) (h : ∀ c, l.getLast? = some c → isPySpace c = false) :
    rstripL l = l := by
  cases hrev : l.reverse with
  | nil =>
    have : l = [] := by simpa using congrArg List.reverse hrev
    simp [this, rstripL]
  | cons c cs =>
    have hc : l.getLast? = some c := by
      rw [← List.head?_reverse, hrev]; rfl
    simp [rstripL, hrev, List.dropWhile_cons, h c hc]
    rw [← List.reverse_cons, ← hrev, List.reverse_reverse]

theorem pyStripL_all_ws (l : List Char) (h : ∀ c ∈ l, isPySpace c = true) : pyStripL l = [] := by
  have h1 : l.reverse.dropWhile isPySpace = [] := by
    rw [List.dropWhile_eq_nil_iff]
    intro c hc
    exact h c (List.mem_reverse.mp hc)
  simp [pyStripL, rstripL, lstripL, h1]

/-- C10: reading the voice preference right after writing a non-empty
model string with no leading or trailing whitespace returns that string;
an absent or unreadable preference file, or one holding only whitespace,
makes the read return the configured default model. -/
theorem claim10_voice_preference (m defaultModel : String) (hne : m ≠ "")
    (hlead : ∀ c, m.toList.head? = some c → isPySpace c = false)
    (htrail : ∀ c, m.toList.getLast? = some c → isPySpace c = false) :
    read_voice_preference (write_voice_preference m) defaultModel = m ∧
    read_voice_preference none defaultModel = defaultModel ∧
    (∀ s : String, (∀ c ∈ s.toList, isPySpace c = true) →
      read_voice_preference (some s) defaultModel = defaultModel) := by
  refine ⟨?_, rfl, ?_⟩
  · have hdata : (m ++ "\n").toList = m.toList ++ ['\n'] := by
      simp [String.toList, String.data_append]
    have hstrip : pyStrip (m ++ "\n") = m := by
      unfold pyStrip pyStripL
      rw [hdata]
      show String.mk (lstripL (rstripL (m.toList ++ ['\n']))) = m
      rw [rstripL_append_newline, rstripL_eq_self _ htrail, lstripL_eq_self _ hlead]
      exact stringMk_toList m
    simp [read_voice_preference, write_voice_preference, hstrip, hne]
  · intro s hs
    have hstrip : pyStrip s = "" := by
      unfold pyStrip
      rw [pyStripL_all_ws _ hs]
    simp [read_voice_preference, hstrip]

theorem claim10_witness :
    read_voice_preference (write_voice_preference "aura-2-orion-en") "aura-2-thalia-en" =
      "aura-2-orion-en" ∧
    read_voice_preference none "aura-2-thalia-en" = "aura-2-thalia-en" ∧
    read_voice_preference (some " \n ") "aura-2-thalia-en" = "aura-2-thalia-en" := by
  obtain ⟨h1, h2, h3⟩ := claim10_voice_preference "aura-2-orion-en" "aura-2-thalia-en"
    (by decide) (by decide) (by decide)
  exact ⟨h1, h2, h3 " \n " (by decide)⟩

theorem length_rstripL_le (l : List Char) : (rstripL l).length ≤ l.length := by
  calc (rstripL l).length = (l.reverse.dropWhile isPySpace).length := by simp [rstripL]
    _ ≤ l.reverse.length := (List.dropWhile_suffix _).length_le
    _ = l.length := List.length_reverse ..

/-- C9: whenever the persona feature is enabled, some persona content
exists and the assembled prompt exceeds the configured maximum character
count, the persona block produced by the prompt assembler has length at
most the limit plus the length of the truncation marker and ends with
that marker. -/
theorem claim9_persona_truncation (enabledEnv maxCharsEnv : Option String)
    (files : String → String)
    (hen : asBoolEnv enabledEnv true = true)
    (hch : (personaChunks files).isEmpty = false)
    (hlen : (personaAssembled files).length > asIntEnv maxCharsEnv 12000) :
    (build_shared_persona_prompt enabledEnv files maxCharsEnv).length ≤
      asIntEnv maxCharsEnv 12000 + truncMarker.length ∧
    truncMarker.toList <:+ (build_shared_persona_prompt enabledEnv files maxCharsEnv).toList := by
  have hbuild : build_shared_persona_prompt enabledEnv files maxCharsEnv =
      String.mk (rstripL ((personaAssembled files).toList.take (asIntEnv maxCharsEnv 12000)))
        ++ truncMarker := by
    simp [build_shared_persona_prompt, hen, hch, hlen]
  constructor
  · rw [hbuild, String.length_append]
    have h1 : (String.mk (rstripL ((personaAssembled files).toList.take
        (asIntEnv maxCharsEnv 12000)))).length ≤ asIntEnv maxCharsEnv 12000 := by
      show (rstripL _).length ≤ _
      calc (rstripL ((personaAssembled files).toList.take (asIntEnv maxCharsEnv 12000))).length
          ≤ ((personaAssembled files).toList.take (asIntEnv maxCharsEnv 12000)).length :=
            length_rstripL_le ..
        _ ≤ asIntEnv maxCharsEnv 12000 := by simp [List.length_take]
    omega
  · rw [hbuild]
    show truncMarker.toList <:+ (String.mk _ ++ truncMarker).data
    rw [String.data_append]
    exact List.suffix_append ..

set_option maxRecDepth 8192 in
theorem claim9_witness :
    (build_shared_persona_prompt none
      (fun f => if f = "SOUL.md" then "0123456789abcdef" else "") (some "30")).length ≤
      30 + truncMarker.length ∧
    truncMarker.toList <:+ (build_shared_persona_prompt none
      (fun f => if f = "SOUL.md" then "0123456789abcdef" else "") (some "30")).toList :=
  claim9_persona_truncation none (some "30")
    (fun f => if f = "SOUL.md" then "0123456789abcdef" else "")
    (by decide) (by decide) (by decide)

theorem objLookup_objSet_self (fs : List (String × Json)) (k : String) (v : Json) :
    objLookup (objSet fs k v) k = some v := by
  induction fs with
  | nil => simp [objSet, objLookup]
  | cons kv rest ih =>
    obtain ⟨k2, v2⟩ := kv
    by_cases h : k2 = k
    · simp [objSet, h, objLookup]
    · simpa [objSet, h, objLookup] using ih

theorem objLookup_objSet_ne (fs : List (String × Json)) (k k2 : String) (v : Json)
    (h : k2 ≠ k) : objLookup (objSet fs k v) k2 = objLookup fs k2 := by
  induction fs with
  | nil => simp [objSet, objLookup, Ne.symm h]
  | cons kv rest ih =>
    obtain ⟨k3, v3⟩ := kv
    by_cases h3 : k3 = k
    · subst h3
      simp [objSet, objLookup, Ne.symm h]
    · by_cases h2 : k3 = k2
      · subst h2
        simp [objSet, h3, objLookup]
      · simpa [objSet, h3, objLookup, h2] using ih

theorem objLookup_objRemove_self (fs : List (String × Json)) (k : String) :
    objLookup (objRemove fs k) k = none := by
  simp only [objLookup, Option.map_eq_none']
  rw [List.find?_eq_none]
  intro kv hm
  simp only [objRemove, List.mem_filter] at hm
  simpa using hm.2

theorem objLookup_objRemove_ne (fs : List (String × Json)) (k k2 : String) (h : k2 ≠ k) :
    objLookup (objRemove fs k) k2 = objLookup fs k2 := by
  induction fs with
  | nil => simp [objRemove, objLookup]
  | cons kv rest ih =>
    obtain ⟨k3, v3⟩ := kv
    by_cases h3 : k3 = k
    · subst h3
      simpa [objRemove, objLookup, Ne.symm h] using ih
    · by_cases h2 : k3 = k2
      · subst h2
        simp [objRemove, h3, objLookup]
      · simpa [objRemove, h3, objLookup, h2] using ih

theorem proxyInjected_eq_spec (personaPrompt overlayPrompt nowUtc callContext : String) :
    proxyInjectedMessages personaPrompt overlayPrompt nowUtc callContext =
      specInjectedPrefix personaPrompt overlayPrompt nowUtc callContext := by
  by_cases hp : personaPrompt = ""
  · by_cases hc : callContext = "" <;>
      simp [proxyInjectedMessages, specInjectedPrefix, hp, hc]
  · by_cases hc : callContext = "" <;>
      simp [proxyInjectedMessages, specInjectedPrefix, hp, hc]

/-- C6: for every incoming completion request body, the forwarded body
carries the injected developer prefix (persona block when enabled and
non-empty, then the behaviour-policy block, then the current-UTC-time
block, then an outbound-call-context block only when a context is
recorded) prepended to the caller-supplied messages, which default to
the empty list when the `messages` field is absent or not a list; the
`model` field is overridden to `openclaw/voice`; and the `tools` and
`tool_choice` fields are absent. -/
theorem claim6_proxy_request_shape (body : List (String × Json))
    (enabledEnv maxCharsEnv : Option String) (files : String → String)
    (overlayPrompt nowUtc callContext : String) :
    objLookup (proxyTransformBody body
        (build_shared_persona_prompt enabledEnv files maxCharsEnv)
        overlayPrompt nowUtc callContext) "messages" =
      some (.arr (specInjectedPrefix (build_shared_persona_prompt enabledEnv files maxCharsEnv)
        overlayPrompt nowUtc callContext ++ callerMessages body)) ∧
    objLookup (proxyTransformBody body
        (build_shared_persona_prompt enabledEnv files maxCharsEnv)
        overlayPrompt nowUtc callContext) "model" = some (.str "openclaw/voice") ∧
    objLookup (proxyTransformBody body
        (build_shared_persona_prompt enabledEnv files maxCharsEnv)
        overlayPrompt nowUtc callContext) "tools" = none ∧
    objLookup (proxyTransformBody body
        (build_shared_persona_prompt enabledEnv files maxCharsEnv)
        overlayPrompt nowUtc callContext) "tool_choice" = none := by
  unfold proxyTransformBody
  refine ⟨?_, ?_, ?_, ?_⟩
  · rw [objLookup_objRemove_ne _ _ _ (by decide), objLookup_objRemove_ne _ _ _ (by decide),
      objLookup_objSet_ne _ _ _ _ (by decide), objLookup_objSet_self,
      proxyInjected_eq_spec]
    rfl
  · rw [objLookup_objRemove_ne _ _ _ (by decide), objLookup_objRemove_ne _ _ _ (by decide),
      objLookup_objSet_self]
  · rw [objLookup_objRemove_ne _ _ _ (by decide), objLookup_objRemove_self]
  · rw [objLookup_objRemove_self]

theorem teardownRegistry_eq_spec (reg : Registry) (key : String)
    (hcur : ∀ v, ("_current", v) ∈ reg → v = key) :
    bridgeTeardownRegistry reg key = specTeardownRegistry reg key := by
  induction reg with
  | nil => rfl
  | cons kv rest ih =>
    obtain ⟨k0, v0⟩ := kv
    have hrest : ∀ v, ("_current", v) ∈ rest → v = key :=
      fun v hv => hcur v (List.mem_cons_of_mem _ hv)
    by_cases hk : k0 = "_current"
    · subst hk
      have hv0 : v0 = key := hcur v0 (List.mem_cons_self ..)
      subst hv0
      simpa [bridgeTeardownRegistry, registryPop, registryEraseValue,
        specTeardownRegistry] using ih hrest
    · by_cases hv : v0 = key
      · subst hv
        simpa [bridgeTeardownRegistry, registryPop, registryEraseValue,
          specTeardownRegistry, hk] using ih hrest
      · simpa [bridgeTeardownRegistry, registryPop, registryEraseValue,
          specTeardownRegistry, hk, hv] using ih hrest

theorem bridgeTeardownRegistry_idem (reg : Registry) (key : String) :
    bridgeTeardownRegistry (bridgeTeardownRegistry reg key) key =
      bridgeTeardownRegistry reg key := by
  induction reg with
  | nil => rfl
  | cons kv rest ih =>
    obtain ⟨k0, v0⟩ := kv
    by_cases hk : k0 = "_current"
    · simpa [bridgeTeardownRegistry, registryPop, registryEraseValue, hk] using ih
    · by_cases hv : v0 = key
      · simpa [bridgeTeardownRegistry, registryPop, registryEraseValue, hk, hv] using ih
      · simpa [bridgeTeardownRegistry, registryPop, registryEraseValue, hk, hv] using ih

theorem bridgeTeardown_idem (st : BridgeState) :
    bridgeTeardown (bridgeTeardown st) = bridgeTeardown st := by
  unfold bridgeTeardown
  cases hsk : st.sessionKey with
  | none =>
    simp [hsk, Option.map_map]
  | some key =>
    simp [hsk, Option.map_map, bridgeTeardownRegistry_idem]

/-- C5: on teardown of a call whose `"_current"` registry entries (when
present) carry this call's session key — which holds in every reachable
state, the only write to `"_current"` being the owner-derived key used
here — every created task (sender, receiver, warm-up) is cancelled, the
outbound connection is closed, the registry keeps exactly the entries
whose value differs from this call's session key (the `"_current"`
entry included), the recorded call context is cleared, and teardown is
idempotent. -/
theorem claim5_teardown (st : BridgeState) (key : String)
    (hkey : st.sessionKey = some key)
    (hcur : ∀ v, ("_current", v) ∈ st.registry → v = key) :
    (st.senderTask.isSome → (bridgeTeardown st).senderTask = some true) ∧
    (st.receiverTask.isSome → (bridgeTeardown st).receiverTask = some true) ∧
    (st.prewarmTask.isSome → (bridgeTeardown st).prewarmTask = some true) ∧
    (st.deepgramWs.isSome → (bridgeTeardown st).deepgramWs = some true) ∧
    (bridgeTeardown st).registry = specTeardownRegistry st.registry key ∧
    (bridgeTeardown st).activeCallContext = "" ∧
    bridgeTeardown (bridgeTeardown st) = bridgeTeardown st := by
  refine ⟨?_, ?_, ?_, ?_, ?_, rfl, bridgeTeardown_idem st⟩
  · intro h
    obtain ⟨b, hb⟩ := Option.isSome_iff_exists.mp h
    simp [bridgeTeardown, hb]
  · intro h
    obtain ⟨b, hb⟩ := Option.isSome_iff_exists.mp h
    simp [bridgeTeardown, hb]
  · intro h
    obtain ⟨b, hb⟩ := Option.isSome_iff_exists.mp h
    simp [bridgeTeardown, hb]
  · intro h
    obtain ⟨b, hb⟩ := Option.isSome_iff_exists.mp h
    simp [bridgeTeardown, hb]
  · simp [bridgeTeardown, hkey, teardownRegistry_eq_spec st.registry key hcur]

theorem claim5_witness :
    (bridgeTeardown
      { senderTask := some false, receiverTask := some false, prewarmTask := some false,
        deepgramWs := some false, sessionKey := some "agent:voice:owner:+15550001111",
        registry := [("https://example.ngrok.app", "agent:voice:owner:+15550001111"),
                     ("_current", "agent:voice:owner:+15550001111")],
        activeCallContext := "check on the build" }).registry =
      specTeardownRegistry
        [("https://example.ngrok.app", "agent:voice:owner:+15550001111"),
         ("_current", "agent:voice:owner:+15550001111")]
        "agent:voice:owner:+15550001111" := by
  have h := claim5_teardown
    { senderTask := some false, receiverTask := some false, prewarmTask := some false,
      deepgramWs := some false, sessionKey := some "agent:voice:owner:+15550001111",
      registry := [("https://example.ngrok.app", "agent:voice:owner:+15550001111"),
                   ("_current", "agent:voice:owner:+15550001111")],
      activeCallContext := "check on the build" }
    "agent:voice:owner:+15550001111" rfl
    (by
      intro v hv
      simp at hv
      exact hv)
  exact h.2.2.2.2.1

theorem maxVoiceScore_cons (q : String) (kv : String × VoiceInfo)
    (rest : List (String × VoiceInfo)) :
    maxVoiceScore q (kv :: rest) = max (voiceScore q kv.1 kv.2) (maxVoiceScore q rest) := by
  simp [maxVoiceScore]

theorem fuzzyGo_spec (q : String) (l : List (String × VoiceInfo)) :
    ∀ (bn : Option String) (bs : Nat),
      fuzzyGo q l (bn, bs) =
        if maxVoiceScore q l > bs then
          ((l.find? (fun kv => voiceScore q kv.1 kv.2 = maxVoiceScore q l)).map
            (fun kv => kv.1), maxVoiceScore q l)
        else (bn, bs) := by
  induction l with
  | nil =>
    intro bn bs
    simp [fuzzyGo, maxVoiceScore]
  | cons kv rest ih =>
    intro bn bs
    obtain ⟨n0, i0⟩ := kv
    rw [maxVoiceScore_cons]
    by_cases h0 : voiceScore q n0 i0 > bs
    · have hstep : fuzzyGo q ((n0, i0) :: rest) (bn, bs) =
          fuzzyGo q rest (some n0, voiceScore q n0 i0) := by
        simp [fuzzyGo, h0]
      rw [hstep, ih (some n0) (voiceScore q n0 i0)]
      have hgt : max (voiceScore q n0 i0) (maxVoiceScore q rest) > bs :=
        lt_of_lt_of_le h0 (Nat.le_max_left _ _)
      by_cases h1 : maxVoiceScore q rest > voiceScore q n0 i0
      · have hMM : max (voiceScore q n0 i0) (maxVoiceScore q rest) = maxVoiceScore q rest :=
          Nat.max_eq_right (le_of_lt h1)
        rw [if_pos h1, if_pos hgt, hMM]
        rw [List.find?_cons_of_neg]
        simp only [Prod.fst, Prod.snd]
        simp
        omega
      · have hMM : max (voiceScore q n0 i0) (maxVoiceScore q rest) = voiceScore q n0 i0 :=
          Nat.max_eq_left (Nat.le_of_not_lt h1)
        rw [if_neg h1, if_pos hgt, hMM]
        rw [List.find?_cons_of_pos]
        · simp
        · simp
    · have hstep : fuzzyGo q ((n0, i0) :: rest) (bn, bs) = fuzzyGo q rest (bn, bs) := by
        simp [fuzzyGo, h0]
      rw [hstep, ih bn bs]
      by_cases h1 : maxVoiceScore q rest > bs
      · have hgt : max (voiceScore q n0 i0) (maxVoiceScore q rest) > bs :=
          lt_of_lt_of_le h1 (Nat.le_max_right _ _)
        have hMM : max (voiceScore q n0 i0) (maxVoiceScore q rest) = maxVoiceScore q rest :=
          Nat.max_eq_right (le_trans (Nat.le_of_not_lt h0) (le_of_lt h1))
        rw [if_pos h1, if_pos hgt, hMM]
        rw [List.find?_cons_of_neg]
        simp
        omega
      · have hgt : ¬(max (voiceScore q n0 i0) (maxVoiceScore q rest) > bs) :=
          Nat.not_lt.mpr (Nat.max_le.mpr ⟨Nat.le_of_not_lt h0, Nat.le_of_not_lt h1⟩)
        rw [if_neg h1, if_neg hgt]

theorem maxVoiceScore_attained (q : String) (l : List (String × VoiceInfo))
    (h : maxVoiceScore q l > 0) :
    ∃ kv ∈ l, voiceScore q kv.1 kv.2 = maxVoiceScore q l := by
  induction l with
  | nil => simp [maxVoiceScore] at h
  | cons kv rest ih =>
    rw [maxVoiceScore_cons] at h ⊢
    by_cases h1 : voiceScore q kv.1 kv.2 ≥ maxVoiceScore q rest
    · exact ⟨kv, List.mem_cons_self .., (Nat.max_eq_left h1).symm⟩
    · have hr : maxVoiceScore q rest > 0 := by omega
      obtain ⟨kv2, hm2, hs2⟩ := ih hr
      exact ⟨kv2, List.mem_cons_of_mem _ hm2, by omega⟩

theorem find?_key_of_nodup {α : Type} (l : List (String × α)) (hnd : (l.map Prod.fst).Nodup)
    (kv : String × α) (hm : kv ∈ l) : l.find? (fun x => x.1 = kv.1) = some kv := by
  induction l with
  | nil => cases hm
  | cons hd rest ih =>
    rcases List.mem_cons.mp hm with he | hm2
    · subst he
      rw [List.find?_cons_of_pos]
      simp
    · have hne : hd.1 ≠ kv.1 := by
        intro he
        have hkey : kv.1 ∈ rest.map Prod.fst := List.mem_map_of_mem _ hm2
        exact absurd (he ▸ hkey) (List.nodup_cons.mp (by simpa using hnd)).1
      rw [List.find?_cons_of_neg]
      · exact ih (List.nodup_cons.mp (by simpa using hnd)).2 hm2
      · simp [hne]

theorem fuzzyResolve_eq_spec (q : String) : fuzzyResolve q = specFuzzyPick q := by
  have hgo := fuzzyGo_spec q VOICE_CATALOG none 0
  by_cases hM : maxVoiceScore q VOICE_CATALOG > 0
  · obtain ⟨kva, hkva_mem, hkva_score⟩ := maxVoiceScore_attained q VOICE_CATALOG hM
    have hfind : (VOICE_CATALOG.find?
        (fun x => voiceScore q x.1 x.2 = maxVoiceScore q VOICE_CATALOG)).isSome := by
      rw [List.find?_isSome]
      exact ⟨kva, hkva_mem, by simp [hkva_score]⟩
    obtain ⟨kv0, hkv0⟩ := Option.isSome_iff_exists.mp hfind
    have hmem0 : kv0 ∈ VOICE_CATALOG := List.mem_of_find?_eq_some hkv0
    have hname_ne : kv0.1 ≠ "" := by
      have hall : ∀ x ∈ VOICE_CATALOG, x.1 ≠ "" := by decide
      exact hall kv0 hmem0
    have hkey : fuzzyGo q VOICE_CATALOG (none, 0) =
        (some kv0.1, maxVoiceScore q VOICE_CATALOG) := by
      rw [hgo, if_pos hM, hkv0]
      simp
    have hnodup : (VOICE_CATALOG.map Prod.fst).Nodup := by decide
    have hcat : catalogFind kv0.1 = some kv0.2 := by
      simp [catalogFind, find?_key_of_nodup VOICE_CATALOG hnodup kv0 hmem0]
    unfold fuzzyResolve specFuzzyPick
    rw [hkey]
    simp [hname_ne, hM, hcat, hkv0]
  · have hkey : fuzzyGo q VOICE_CATALOG (none, 0) = (none, 0) := by
      rw [hgo, if_neg hM]
    unfold fuzzyResolve specFuzzyPick
    rw [hkey]
    simp [hM]

/-- C8: `resolve_voice` maps `orion` and `aura-2-orion-en` to
`aura-2-orion-en`, `male british` to the male British catalog entry
`aura-2-draco-en` and `xyzzy` to absent; and for every query it tries,
in order, an exact catalog-name match, an exact model-identifier match,
and fuzzy scoring (3 points for a gender keyword match, 5 per accent
keyword shared with the entry, 10 when the entry name occurs in the
query) in which the first entry attaining the maximal positive score
wins and a zero maximum yields absent. -/
theorem claim8_resolve_voice :
    resolve_voice "orion" = some "aura-2-orion-en" ∧
    resolve_voice "aura-2-orion-en" = some "aura-2-orion-en" ∧
    resolve_voice "male british" = some "aura-2-draco-en" ∧
    resolve_voice "xyzzy" = none ∧
    ∀ query : String,
      (∀ info, catalogFind (pyStrip (pyLower query)) = some info →
        resolve_voice query = some info.model) ∧
      (catalogFind (pyStrip (pyLower query)) = none →
        (VOICE_CATALOG.any (fun kv => kv.2.model = pyStrip (pyLower query))) = true →
        resolve_voice query = some (pyStrip (pyLower query))) ∧
      (catalogFind (pyStrip (pyLower query)) = none →
        (VOICE_CATALOG.any (fun kv => kv.2.model = pyStrip (pyLower query))) = false →
        resolve_voice query = specFuzzyPick (pyStrip (pyLower query))) := by
  refine ⟨by decide, by decide, by decide, by decide, ?_⟩
  intro query
  refine ⟨?_, ?_, ?_⟩
  · intro info h
    simp [resolve_voice, h]
  · intro h ha
    simp [resolve_voice, h, ha]
  · intro h ha
    simp [resolve_voice, h, ha, fuzzyResolve_eq_spec]

theorem claim8_witness :
    resolve_voice "  Female GERMAN " = specFuzzyPick "female german" := by
  have h := (claim8_resolve_voice.2.2.2.2 "  Female GERMAN ").2.2 (by decide) (by decide)
  rw [show pyStrip (pyLower "  Female GERMAN ") = "female german" from by decide] at h
  exact h

/-- C3: in the per-call receiving task, once a UserStartedSpeaking event
is received from the speech-agent socket (the stream identifier being
known and non-empty, and no earlier message having broken the loop), the
`clear` event is sent to the inbound telephony socket strictly before
the output of every message received after that event — in particular
before any later audio frame is forwarded inbound. -/
theorem claim3_barge_in (sid : String) (hs : sid ≠ "") (pre post : List DgMsg)
    (ussPayload : String) (fields : List (String × Json))
    (hparse : parseJson ussPayload = some (.obj fields))
    (htype : dgEventType fields = "UserStartedSpeaking")
    (hpre : ∀ m ∈ pre, dgStep (some sid) m ≠ none) :
    dgRun (some sid) (pre ++ DgMsg.text ussPayload :: post) =
      dgRun (some sid) pre ++ TwOut.clear sid :: dgRun (some sid) post := by
  induction pre with
  | nil =>
    simp [dgRun, dgStep, hparse, htype, hs]
  | cons m rest ih =>
    have hm := hpre m (List.mem_cons_self ..)
    have hrest : ∀ m2 ∈ rest, dgStep (some sid) m2 ≠ none :=
      fun m2 h2 => hpre m2 (List.mem_cons_of_mem _ h2)
    cases hstep : dgStep (some sid) m with
    | none => exact absurd hstep hm
    | some outs =>
      simp [dgRun, hstep, ih hrest]

theorem claim3_witness :
    dgRun (some "MZ1") ([DgMsg.binary [1, 2]] ++
        DgMsg.text "\x7b\"type\": \"UserStartedSpeaking\"\x7d" :: [DgMsg.binary [3, 4]]) =
      dgRun (some "MZ1") [DgMsg.binary [1, 2]] ++
        TwOut.clear "MZ1" :: dgRun (some "MZ1") [DgMsg.binary [3, 4]] := by
  exact claim3_barge_in "MZ1" (by decide) [DgMsg.binary [1, 2]] [DgMsg.binary [3, 4]]
    "\x7b\"type\": \"UserStartedSpeaking\"\x7d" [("type", .str "UserStartedSpeaking")]
    rfl rfl
    (by
      intro m hm
      rw [List.mem_singleton] at hm
      subst hm
      simp [dgStep])

/-- C4 counterexample: a media event carrying an empty payload is
skipped entirely by the streaming loop, so its base64-decoded (empty)
frame never reaches the outbound socket, contradicting the claim that
the decoded payload of every media event is forwarded. -/
theorem claim4_counterexample :
    sendToDeepgram (twilioStreamLoop [TwEvent.media ""]).1 ≠
      specDecodedPayloads [TwEvent.media ""] := by
  decide

/-- C4 (amended): for every Streaming-phase event sequence containing
no stop event and whose media events carry non-empty, well-formed base64
payloads, the outbound speech-agent socket receives exactly the
base64-decoded payloads of those media events, in arrival order and with
identical content — no frame lost, reordered or duplicated — and the
loop completes without aborting. -/
theorem claim4_ordered_forwarding (events : List TwEvent)
    (hne : ∀ p, TwEvent.media p ∈ events → p ≠ "" ∧ (b64decode p).isSome)
    (hstop : TwEvent.stop ∉ events) :
    sendToDeepgram (twilioStreamLoop events).1 = specDecodedPayloads events ∧
    (twilioStreamLoop events).2 = false := by
  induction events with
  | nil => simp [twilioStreamLoop, sendToDeepgram, specDecodedPayloads]
  | cons e rest ih =>
    have hne2 : ∀ p, TwEvent.media p ∈ rest → p ≠ "" ∧ (b64decode p).isSome :=
      fun p hp => hne p (List.mem_cons_of_mem _ hp)
    have hstop2 : TwEvent.stop ∉ rest := fun h => hstop (List.mem_cons_of_mem _ h)
    obtain ⟨ih1, ih2⟩ := ih hne2 hstop2
    cases e with
    | media payload =>
      obtain ⟨hp, hdec⟩ := hne payload (List.mem_cons_self ..)
      obtain ⟨frame, hframe⟩ := Option.isSome_iff_exists.mp hdec
      simp [twilioStreamLoop, hp, hframe, sendToDeepgram, specDecodedPayloads, ih1, ih2]
    | stop => exact absurd (List.mem_cons_self ..) hstop
    | connected =>
      simpa [twilioStreamLoop, specDecodedPayloads] using ⟨ih1, ih2⟩
    | other kind =>
      simpa [twilioStreamLoop, specDecodedPayloads] using ⟨ih1, ih2⟩

theorem claim4_witness :
    sendToDeepgram (twilioStreamLoop [TwEvent.media "AQI=", TwEvent.media "AwQ="]).1 =
      specDecodedPayloads [TwEvent.media "AQI=", TwEvent.media "AwQ="] ∧
    (twilioStreamLoop [TwEvent.media "AQI=", TwEvent.media "AwQ="]).2 = false := by
  exact claim4_ordered_forwarding [TwEvent.media "AQI=", TwEvent.media "AwQ="]
    (by
      intro p hp
      simp only [List.mem_cons, List.mem_singleton] at hp
      rcases hp with h | h | h
      · cases h
        exact ⟨by decide, by decide⟩
      · cases h
        exact ⟨by decide, by decide⟩
      · cases h)
    (by decide)

theorem mem_of_mem_dropWhile {l : List Char} {p : Char → Bool} {c : Char}
    (h : c ∈ l.dropWhile p) : c ∈ l :=
  (List.dropWhile_suffix p).sublist.subset h

theorem markerFree_facts (c : Char) (h : markerFree c = true) :
    c ≠ '\x60' ∧ c ≠ '*' ∧ c ≠ '_' ∧ c ≠ '#' ∧ c ≠ '-' ∧ c ≠ '+' ∧ c ≠ '>' ∧
    c ≠ '[' ∧ c ≠ '!' ∧ c ≠ '\n' ∧ isPyDigit c = false ∧ isEmojiStripped c = false := by
  simp [markerFree] at h
  tauto

theorem scanSub_eq_self (attempt : List Char → Option (List Char × List Char))
    (p : Char → Bool) (hnone : ∀ c cs, p c = true → attempt (c :: cs) = none) :
    ∀ (fuel : Nat) (l : List Char), (∀ c ∈ l, p c = true) → scanSub attempt fuel l = l := by
  intro fuel
  induction fuel with
  | zero =>
    intro l _
    rfl
  | succ n ih =>
    intro l hl
    cases l with
    | nil => rfl
    | cons c cs =>
      simp only [scanSub, hnone c cs (hl c (List.mem_cons_self ..))]
      rw [ih cs (fun x hx => hl x (List.mem_cons_of_mem _ hx))]

theorem scanSubML_eq_self (attempt : List Char → Option (List Char × Bool × List Char))
    (p : Char → Bool) (hnone : ∀ l, (∀ c ∈ l, p c = true) → attempt l = none) :
    ∀ (fuel : Nat) (flag : Bool) (l : List Char), (∀ c ∈ l, p c = true) →
      scanSubML attempt fuel flag l = l := by
  intro fuel
  induction fuel with
  | zero =>
    intro flag l _
    rfl
  | succ n ih =>
    intro flag l hl
    cases l with
    | nil => rfl
    | cons c cs =>
      simp only [scanSubML, hnone (c :: cs) hl, ite_self]
      rw [ih _ cs (fun x hx => hl x (List.mem_cons_of_mem _ hx))]

theorem tryCodeBlock_none (c : Char) (cs : List Char) (h : markerFree c = true) :
    tryCodeBlock (c :: cs) = none := by
  have hc := (markerFree_facts c h).1
  cases cs with
  | nil => rfl
  | cons c2 cs2 =>
    cases cs2 with
    | nil => rfl
    | cons c3 cs3 => simp [tryCodeBlock, hc]

theorem tryDelim1_none (d c : Char) (cs : List Char) (hne : c ≠ d) :
    tryDelim1 d (c :: cs) = none := by
  simp [tryDelim1, hne]

theorem tryDelim2_none (d c : Char) (cs : List Char) (hne : c ≠ d) :
    tryDelim2 d (c :: cs) = none := by
  cases cs with
  | nil => rfl
  | cons c2 cs2 => simp [tryDelim2, hne]

theorem tryLink_none (c : Char) (cs : List Char) (hne : c ≠ '[') :
    tryLink (c :: cs) = none := by
  simp [tryLink, hne]

theorem tryImage_none (c : Char) (cs : List Char) (hne : c ≠ '!') :
    tryImage (c :: cs) = none := by
  cases cs with
  | nil => rfl
  | cons c2 cs2 => simp [tryImage, hne]

theorem tryNewlines_none (c : Char) (cs : List Char) (hne : c ≠ '\n') :
    tryNewlines (c :: cs) = none := by
  simp [tryNewlines, hne]

theorem tryHeader_none (l : List Char) (h : ∀ c ∈ l, markerFree c = true) :
    tryHeader l = none := by
  cases l with
  | nil => rfl
  | cons c cs =>
    have hc := (markerFree_facts c (h c (List.mem_cons_self ..))).2.2.2.1
    simp [tryHeader, List.takeWhile_cons, hc]

theorem tryLinePrefix_none (isMarker : Char → Bool) (l : List Char)
    (h : ∀ c ∈ l, isMarker c = false) : tryLinePrefix isMarker l = none := by
  unfold tryLinePrefix
  cases hd : l.dropWhile isPySpace with
  | nil => rfl
  | cons c r =>
    have hcmem : c ∈ l := mem_of_mem_dropWhile (p := isPySpace) (by
      rw [hd]
      exact List.mem_cons_self ..)
    simp [h c hcmem]

theorem tryNumbered_none (l : List Char) (h : ∀ c ∈ l, markerFree c = true) :
    tryNumbered l = none := by
  unfold tryNumbered
  cases hd : l.dropWhile isPySpace with
  | nil => simp [hd]
  | cons c r =>
    have hcmem : c ∈ l := mem_of_mem_dropWhile (p := isPySpace) (by
      rw [hd]
      exact List.mem_cons_self ..)
    have hdig := (markerFree_facts c (h c hcmem)).2.2.2.2.2.2.2.2.2.2.1
    simp [hd, List.takeWhile_cons, hdig]

theorem tryHr_none (l : List Char) (h : ∀ c ∈ l, markerFree c = true) :
    tryHr l = none := by
  cases l with
  | nil => rfl
  | cons c cs =>
    obtain ⟨h1, h2, h3, h4, h5, h6, h7, h8, h9, h10, h11, h12⟩ :=
      markerFree_facts c (h c (List.mem_cons_self ..))
    simp [tryHr, List.takeWhile_cons, h2, h3, h5]

theorem strip_markdown_eq_self (s : String) (h : ∀ c ∈ s.toList, markerFree c = true) :
    strip_markdown s = s := by
  simp only [strip_markdown, stripStage, stripStageML]
  rw [scanSub_eq_self tryCodeBlock markerFree tryCodeBlock_none _ _ h]
  rw [scanSub_eq_self (tryDelim1 '\x60') markerFree
    (fun c cs hc => tryDelim1_none _ c cs (markerFree_facts c hc).1) _ _ h]
  rw [scanSub_eq_self (tryDelim2 '*') markerFree
    (fun c cs hc => tryDelim2_none _ c cs (markerFree_facts c hc).2.1) _ _ h]
  rw [scanSub_eq_self (tryDelim1 '*') markerFree
    (fun c cs hc => tryDelim1_none _ c cs (markerFree_facts c hc).2.1) _ _ h]
  rw [scanSub_eq_self (tryDelim2 '_') markerFree
    (fun c cs hc => tryDelim2_none _ c cs (markerFree_facts c hc).2.2.1) _ _ h]
  rw [scanSub_eq_self (tryDelim1 '_') markerFree
    (fun c cs hc => tryDelim1_none _ c cs (markerFree_facts c hc).2.2.1) _ _ h]
  rw [scanSubML_eq_self tryHeader markerFree tryHeader_none _ _ _ h]
  rw [scanSubML_eq_self (tryLinePrefix isBulletMarker) markerFree
    (fun l hl => tryLinePrefix_none isBulletMarker l (fun c hc => by
      obtain ⟨f1, f2, f3, f4, f5, f6, f7, f8, f9, f10, f11, f12⟩ :=
        markerFree_facts c (hl c hc)
      simp [isBulletMarker, f2, f5, f6])) _ _ _ h]
  rw [scanSubML_eq_self tryNumbered markerFree tryNumbered_none _ _ _ h]
  rw [scanSub_eq_self tryLink markerFree
    (fun c cs hc => tryLink_none c cs (markerFree_facts c hc).2.2.2.2.2.2.2.1) _ _ h]
  rw [scanSub_eq_self tryImage markerFree
    (fun c cs hc => tryImage_none c cs (markerFree_facts c hc).2.2.2.2.2.2.2.2.1) _ _ h]
  rw [scanSubML_eq_self tryHr markerFree tryHr_none _ _ _ h]
  rw [scanSubML_eq_self (tryLinePrefix isQuoteMarker) markerFree
    (fun l hl => tryLinePrefix_none isQuoteMarker l (fun c hc => by
      obtain ⟨f1, f2, f3, f4, f5, f6, f7, f8, f9, f10, f11, f12⟩ :=
        markerFree_facts c (hl c hc)
      simp [isQuoteMarker, f7])) _ _ _ h]
  rw [List.filter_eq_self.mpr (fun c hc => by
    simp [(markerFree_facts c (h c hc)).2.2.2.2.2.2.2.2.2.2.2])]
  rw [scanSub_eq_self tryNewlines markerFree
    (fun c cs hc => tryNewlines_none c cs (markerFree_facts c hc).2.2.2.2.2.2.2.2.2.1) _ _ h]
  exact stringMk_toList s

/-- C7 counterexample: `strip_markdown` maps `**a*b**` to `*ab**` (the
bold pattern cannot match, the italic pattern strips the inner pair),
and a second application strips further to `ab*`, so the transform is
not idempotent. -/
theorem claim7_counterexample :
    strip_markdown (strip_markdown "**a*b**") ≠ strip_markdown "**a*b**" := by
  decide

/-- C7 (amended): the text transform is not idempotent on arbitrary
input (see the counterexample), but on every string free of
formatting-marker characters (backquote, star, underscore, hash,
hyphen, plus, greater-than, bracket, bang, newline, digits, stripped
emoji) it acts as the identity, hence applying it twice equals applying
it once there. -/
theorem claim7_idempotent_on_marker_free (s : String)
    (h : ∀ c ∈ s.toList, markerFree c = true) :
    strip_markdown (strip_markdown s) = strip_markdown s := by
  rw [strip_markdown_eq_self s h]
  exact strip_markdown_eq_self s h

theorem claim7_witness :
    strip_markdown (strip_markdown "hello world") = strip_markdown "hello world" :=
  claim7_idempotent_on_marker_free "hello world" (by decide)

theorem transformChunkWith_delta (strip : String → String)
    (fs f0 df : List (String × Json)) (rest : List Json) (s : String)
    (h1 : objLookup fs "choices" = some (.arr (.obj f0 :: rest)))
    (h2 : objLookup f0 "delta" = some (.obj df))
    (h3 : objLookup df "content" = some (.str s))
    (hs : s ≠ "") :
    transformChunkWith strip (.obj fs) =
      some (.obj (objSet fs "choices" (.arr (.obj (objSet f0 "delta"
        (.obj (objSet df "content" (.str (strip s))))) :: rest)))) := by
  simp [transformChunkWith, h1, h2, h3, pyTruthy, hs]

theorem runStreamWith_no_crash (strip : String → String) (lines : List String)
    (h : (runStreamWith strip lines).2 = false) :
    (runStreamWith strip lines).1 =
      lines.filterMap (fun l => stepChunk (processLineWith strip l)) := by
  induction lines with
  | nil => rfl
  | cons line rest ih =>
    cases hp : processLineWith strip line with
    | skip =>
      have h2 : (runStreamWith strip rest).2 = false := by
        simpa [runStreamWith, hp] using h
      simpa [runStreamWith, hp, List.filterMap_cons, stepChunk] using ih h2
    | emit chunk =>
      have h2 : (runStreamWith strip rest).2 = false := by
        simpa [runStreamWith, hp] using h
      simpa [runStreamWith, hp, List.filterMap_cons, stepChunk] using ih h2
    | crash =>
      simp [runStreamWith, hp] at h

/-- C2 counterexample: the non-empty line `data: null` is valid JSON
and not the sentinel, yet it is not passed through: the membership test
`'choices' in None` raises an uncaught TypeError, the generator aborts,
and every later line of the stream is dropped. -/
theorem claim2_counterexample :
    processLine "data: null" = .crash ∧
    runStream ["data: null", "event: ping"] = ([], true) := by
  exact ⟨by decide, by decide⟩

/-- C2 (amended): for every line of the backend's streaming response:
blank lines are elided; a `data: ` line other than the `[DONE]` sentinel
that fails to parse as JSON is passed through unmodified; one that
parses is re-emitted re-serialized with `data: ...\n\n` framing — in
particular, when it carries a well-typed text delta fragment, with that
fragment replaced by `strip_markdown` of it in place; one whose
transform raises (non-container JSON, ill-typed choices/delta/content)
aborts the stream, dropping it and all later lines; all other non-empty
lines are passed through; absent such an abort the emitted events appear
exactly in arrival order; and the `**Hi** there` end-to-end example is
re-emitted with delta content `Hi there`. -/
theorem claim2_stream_rewrite :
    (processLine "" = .skip) ∧
    (∀ line : String, ("data: ".toList).isPrefixOf line.toList = true →
      line ≠ "data: [DONE]" → parseJson (String.mk (line.toList.drop 6)) = none →
      processLine line = .emit (line ++ "\n\n")) ∧
    (∀ (line : String) (d d2 : Json), ("data: ".toList).isPrefixOf line.toList = true →
      line ≠ "data: [DONE]" → parseJson (String.mk (line.toList.drop 6)) = some d →
      transformChunk d = some d2 →
      processLine line = .emit ("data: " ++ dumpsJson d2 ++ "\n\n")) ∧
    (∀ (line : String) (fs f0 df : List (String × Json)) (rest : List Json) (s : String),
      ("data: ".toList).isPrefixOf line.toList = true → line ≠ "data: [DONE]" →
      parseJson (String.mk (line.toList.drop 6)) = some (.obj fs) →
      objLookup fs "choices" = some (.arr (.obj f0 :: rest)) →
      objLookup f0 "delta" = some (.obj df) →
      objLookup df "content" = some (.str s) → s ≠ "" →
      processLine line = .emit ("data: " ++ dumpsJson (.obj (objSet fs "choices"
        (.arr (.obj (objSet f0 "delta" (.obj (objSet df "content"
          (.str (strip_markdown s))))) :: rest)))) ++ "\n\n")) ∧
    (∀ (line : String) (d : Json), ("data: ".toList).isPrefixOf line.toList = true →
      line ≠ "data: [DONE]" → parseJson (String.mk (line.toList.drop 6)) = some d →
      transformChunk d = none → processLine line = .crash) ∧
    (∀ line : String, (("data: ".toList).isPrefixOf line.toList = false ∨
      line = "data: [DONE]") → pyStrip line ≠ "" →
      processLine line = .emit (line ++ "\n\n")) ∧
    (∀ lines : List String, (runStream lines).2 = false →
      (runStream lines).1 = lines.filterMap (fun l => stepChunk (processLine l))) ∧
    (runStream ["data: \x7b\"choices\":[\x7b\"delta\":\x7b\"content\":\"**Hi** there\"\x7d\x7d]\x7d"] =
      (["data: \x7b\"choices\": [\x7b\"delta\": \x7b\"content\": \"Hi there\"\x7d\x7d]\x7d\n\n"], false)) := by
  refine ⟨rfl, ?_, ?_, ?_, ?_, ?_, ?_, by decide⟩
  · intro line hpre hdone hparse
    have hline : line ≠ "" := by
      intro he
      rw [he] at hpre
      simp at hpre
    have hcond : (("data: ".toList).isPrefixOf line.toList
        && decide ¬(line = "data: [DONE]")) = true := by
      rw [hpre]
      simp [hdone]
    unfold processLine processLineWith
    rw [if_neg hline, if_pos hcond, hparse]
  · intro line d d2 hpre hdone hparse htrans
    have hline : line ≠ "" := by
      intro he
      rw [he] at hpre
      simp at hpre
    have hcond : (("data: ".toList).isPrefixOf line.toList
        && decide ¬(line = "data: [DONE]")) = true := by
      rw [hpre]
      simp [hdone]
    have htrans2 : transformChunkWith strip_markdown d = some d2 := htrans
    unfold processLine processLineWith
    rw [if_neg hline, if_pos hcond, hparse]
    simp [htrans2]
  · intro line fs f0 df rest s hpre hdone hparse hch hdelta hcontent hs
    have hline : line ≠ "" := by
      intro he
      rw [he] at hpre
      simp at hpre
    have hcond : (("data: ".toList).isPrefixOf line.toList
        && decide ¬(line = "data: [DONE]")) = true := by
      rw [hpre]
      simp [hdone]
    have htrans := transformChunkWith_delta strip_markdown fs f0 df rest s hch hdelta hcontent hs
    unfold processLine processLineWith
    rw [if_neg hline, if_pos hcond, hparse]
    simp [htrans]
  · intro line d hpre hdone hparse htrans
    have hline : line ≠ "" := by
      intro he
      rw [he] at hpre
      simp at hpre
    have hcond : (("data: ".toList).isPrefixOf line.toList
        && decide ¬(line = "data: [DONE]")) = true := by
      rw [hpre]
      simp [hdone]
    have htrans2 : transformChunkWith strip_markdown d = none := htrans
    unfold processLine processLineWith
    rw [if_neg hline, if_pos hcond, hparse]
    simp [htrans2]
  · intro line hnot hstrip
    have hline : line ≠ "" := by
      intro he
      rw [he] at hstrip
      simp [pyStrip, pyStripL, lstripL, rstripL] at hstrip
    have hcond : ¬((("data: ".toList).isPrefixOf line.toList
        && decide ¬(line = "data: [DONE]")) = true) := by
      rcases hnot with hnp | hd
      · rw [hnp]
        simp
      · subst hd
        simp
    unfold processLine processLineWith
    rw [if_neg hline, if_neg hcond, if_pos hstrip]
  · intro lines h
    exact runStreamWith_no_crash strip_markdown lines h

theorem claim2_witness :
    processLine "data: [" = .emit "data: [\n\n" :=
  claim2_stream_rewrite.2.1 "data: [" (by decide) (by decide) rfl
